import Mathlib

/-!
# Modbus client, RTU framing, serial transport and TCP server

A shallow embedding of `rtuclient.go`, `rtu-fuzz.go`, `client.go`,
`tcpserver.go` and of the test handler of `tcpserver_test.go`.

Conventions of the embedding.

* A Go `byte`, `uint16` or `int` is a `Nat` (or `Int` where a subtraction is
  made); every conversion that truncates in Go (`byte(x)`, `uint16(x)`,
  `uint8(x)`) is an explicit `% 2^w`.
* A Go `[]byte` whose nil-ness is observed is a `Slice`: `none` is the nil
  slice, `some bs` a non-nil slice holding `bs`.
* A Go function with several results returns a tuple of all of them, so that a
  result returned next to an error stays visible.
* Code that talks to a collaborator (encoder, transporter, decoder, serial
  port, connection, application handler) takes the outcome of each call as
  input and returns, next to its results, the calls it made in order.
* A run-time panic (nil dereference, index or slice bounds out of range) is the
  result `none`.
-/

namespace Modbus

set_option maxRecDepth 20000

/-! ## Data model -/

/-- A Go byte slice: `none` is nil, `some bs` is a non-nil slice. -/
abbrev Slice := Option (List Nat)

/-- Go `len` of a byte slice; the nil slice has length zero. -/
def len (s : Slice) : Nat := (s.getD []).length

/-- Error values produced by the package. `ErrBadRequest`, `ErrResponseSize`,
`ErrResponse` are the package-level error variables used by `client.go`;
`ModbusError` is the exception error built by `responseError`; `FrameTooLong`,
`FrameTooShort` and `CrcMismatch` stand for the three `fmt.Errorf` values of
`rtuPackager.Encode` and `rtuPackager.Decode` and carry the numbers formatted
into their messages, `ResponseTooShort` and `SlaveIdMismatch` likewise for the
two of `rtuPackager.Verify`; `Errorf` is a `fmt.Errorf` value with a fixed
message; `External` is any error value coming from a collaborator (encoder,
transporter, decoder, serial port, connection). -/
inductive Err where
  | ErrBadRequest
  | ErrResponseSize
  | ErrResponse
  | ModbusError (FunctionCode ExceptionCode : Nat)
  | FrameTooLong (length maxSize : Nat)
  | FrameTooShort
  | CrcMismatch (checksum expected : Nat)
  | ResponseTooShort (length minSize : Nat)
  | SlaveIdMismatch (response request : Nat)
  | Errorf (msg : String)
  | External (tag : Nat)
  deriving DecidableEq, Repr

/-- The transport-independent protocol data unit. -/
structure ProtocolDataUnit where
  FunctionCode : Nat
  Data : Slice
  deriving DecidableEq, Repr

/-- A protocol data unit together with the slave (unit) identifier; the Go
struct embeds `ProtocolDataUnit`. -/
structure PDUwithSlaveid extends ProtocolDataUnit where
  SlaveID : Nat
  deriving DecidableEq, Repr

def rtuMinSize : Nat := 4

def rtuMaxSize : Nat := 256

/-! ## Go primitives used by the code -/

/-- Go `make([]byte, n)`: `n` zero bytes. -/
def make (n : Nat) : List Nat := List.replicate n 0

/-- Go `copy(dst[off:], src)`: overwrites `min(len(dst) - off, len(src))`
bytes of `dst` starting at `off`. -/
def copy (dst : List Nat) (off : Nat) (src : List Nat) : List Nat :=
  let n := min (dst.length - off) src.length
  dst.take off ++ src.take n ++ dst.drop (off + n)

/-- Go `s[lo:hi]` on a slice with `lo ≤ hi ≤ len(s)`. -/
def slice (s : List Nat) (lo hi : Nat) : List Nat := (s.take hi).drop lo

/-- Go conversion `byte(x)` / `uint8(x)`. -/
def byte (x : Nat) : Nat := x % 256

/-- Go conversion `uint16(x)`. -/
def uint16 (x : Nat) : Nat := x % 65536

/-! ## CRC-16 engine -/

/-- Modelled from the spec: the `crc` type used by `rtuPackager` (`reset`,
`pushBytes`, `value`) is declared in a source file that is not available. It
is a 16-bit accumulator. -/
structure crc where
  acc : Nat := 0
  deriving DecidableEq, Repr

/-- Modelled from the spec: `reset` sets the accumulator to the initial value
0xFFFF. -/
def crc.reset (_c : crc) : crc := { acc := 0xFFFF }

/-- Modelled from the spec: one shift-and-conditional-XOR step with the
polynomial 0xA001. -/
def crc.shiftStep (acc : Nat) : Nat :=
  if acc % 2 = 1 then (acc >>> 1) ^^^ 0xA001 else acc >>> 1

/-- Modelled from the spec: processing one byte is an XOR into the accumulator
followed by eight shift-and-conditional-XOR steps. -/
def crc.pushByte (c : crc) (b : Nat) : crc :=
  { acc := crc.shiftStep^[8] (c.acc ^^^ byte b) }

/-- Modelled from the spec: `pushBytes` feeds the bytes in order. -/
def crc.pushBytes (c : crc) (bs : List Nat) : crc := bs.foldl crc.pushByte c

/-- Modelled from the spec: `value` returns the current checksum as a
`uint16`. -/
def crc.value (c : crc) : Nat := uint16 c.acc

/-- The checksum of a byte sequence as both `Encode` and `Decode` compute it:
`crc.reset().pushBytes(bs)` followed by `crc.value()`. -/
def crc16 (bs : List Nat) : Nat := ((({} : crc).reset).pushBytes bs).value

/-! ## RTU framer (`rtuclient.go`) -/

/-- The method `rtuPackager.Encode`: returns `(adu, err)`. -/
def rtuPackager.Encode (pdu : PDUwithSlaveid) : Slice × Option Err :=
  let length := len pdu.Data + 4
  if length > rtuMaxSize then
    (none, some (Err.FrameTooLong length rtuMaxSize))
  else
    let adu := make length
    let adu := adu.set 0 pdu.SlaveID
    let adu := adu.set 1 pdu.FunctionCode
    let adu := copy adu 2 (pdu.Data.getD [])
    let checksum := crc16 (slice adu 0 (length - 2))
    let adu := adu.set (length - 1) (byte (checksum >>> 8))
    let adu := adu.set (length - 2) (byte checksum)
    (some adu, none)

/-- The method `rtuPackager.Decode`: returns `(pdu, err)`. -/
def rtuPackager.Decode (adu : List Nat) : Option PDUwithSlaveid × Option Err :=
  let length := adu.length
  if length < 4 then
    (none, some Err.FrameTooShort)
  else
    let expected := crc16 (slice adu 0 (length - 2))
    let checksum :=
      uint16 ((uint16 (adu.getD (length - 1) 0)) <<< 8) ||| uint16 (adu.getD (length - 2) 0)
    if checksum ≠ expected then
      (none, some (Err.CrcMismatch checksum expected))
    else
      (some { SlaveID := adu.getD 0 0,
              FunctionCode := adu.getD 1 0,
              Data := some (slice adu 2 (length - 2)) }, none)

/-- Outcome of the fuzz harness `Fuzz`: it returns 0 or 1, or panics. -/
inductive FuzzOutcome where
  | ret (n : Nat)
  | panicPduOnError
  | panicNilPdu
  | panicEncode (e : Err)
  | panicNotEqual
  deriving DecidableEq, Repr

/-- The harness `Fuzz` of `rtu-fuzz.go`. -/
def Fuzz (data : List Nat) : FuzzOutcome :=
  match rtuPackager.Decode data with
  | (pdu, some _) =>
    if pdu ≠ none then FuzzOutcome.panicPduOnError else FuzzOutcome.ret 0
  | (none, none) => FuzzOutcome.panicNilPdu
  | (some pdu, none) =>
    match rtuPackager.Encode pdu with
    | (_, some e) => FuzzOutcome.panicEncode e
    | (adu, none) =>
      if adu ≠ some data then FuzzOutcome.panicNotEqual else FuzzOutcome.ret 1


/-! ## Client (`client.go`) -/

/-- Function codes. The constant declarations are in a source file that is
not available; the values are the ones fixed by the Modbus protocol. -/
def FuncCodeReadCoils : Nat := 1

def FuncCodeReadDiscreteInputs : Nat := 2

def FuncCodeReadHoldingRegisters : Nat := 3

def FuncCodeReadInputRegisters : Nat := 4

def FuncCodeWriteSingleCoil : Nat := 5

def FuncCodeWriteSingleRegister : Nat := 6

def FuncCodeWriteMultipleCoils : Nat := 15

def FuncCodeWriteMultipleRegisters : Nat := 16

def FuncCodeMaskWriteRegister : Nat := 22

def FuncCodeReadWriteMultipleRegisters : Nat := 23

/-- Go `binary.BigEndian.PutUint16(b[off:], v)`. -/
def PutUint16 (b : List Nat) (off : Nat) (v : Nat) : List Nat :=
  (b.set off (byte (v >>> 8))).set (off + 1) (byte v)

/-- Go `binary.BigEndian.Uint16(b)`; `none` is the index-out-of-range panic on
a slice shorter than two bytes. -/
def Uint16 (b : List Nat) : Option Nat :=
  match b with
  | b0 :: b1 :: _ => some (uint16 b1 ||| uint16 ((uint16 b0) <<< 8))
  | _ => none

/-- The function `dataBlock`: a sequence of `uint16` values, big endian. -/
def dataBlock (value : List Nat) : List Nat :=
  let data := make (2 * value.length)
  value.enum.foldl (fun data iv => PutUint16 data (iv.1 * 2) iv.2) data

/-- The function `dataBlockSuffix`: the values, then the length of the suffix
in one byte, then the suffix. -/
def dataBlockSuffix (suffix : List Nat) (value : List Nat) : List Nat :=
  let length := 2 * value.length
  let data := make (length + 1 + suffix.length)
  let data := value.enum.foldl (fun data iv => PutUint16 data (iv.1 * 2) iv.2) data
  let data := data.set length (byte suffix.length)
  copy data (length + 1) suffix

/-- The function `responseError`. -/
def responseError (response : ProtocolDataUnit) : Err :=
  let ExceptionCode :=
    if response.Data ≠ none ∧ len response.Data > 0 then (response.Data.getD []).getD 0 0
    else 0
  Err.ModbusError response.FunctionCode ExceptionCode

/-- A call made by the client to one of its collaborators. -/
inductive Call where
  | Encode (pdu : ProtocolDataUnit)
  | Send (aduRequest : Slice)
  | Decode (aduResponse : Slice)
  deriving DecidableEq, Repr

/-- The struct `client`: the three collaborators, each given by what one call
returns. Every client method calls each collaborator at most once. -/
structure client where
  encoder : ProtocolDataUnit → Slice × Option Err
  transporter : Slice → Slice × Option Err
  decoder : Slice → Option ProtocolDataUnit × Option Err

/-- One run of a client method: the collaborator calls it made, in order, and
the values it returned; `ret = none` is a run-time panic (nil dereference or
index out of range). -/
structure Run (α : Type) where
  calls : List Call
  ret : Option α
  deriving DecidableEq, Repr

/-- The method `client.send`: returns `(response, err)`. -/
def client.send (mb : client) (request : ProtocolDataUnit) :
    Run (Option ProtocolDataUnit × Option Err) :=
  match mb.encoder request with
  | (_, some err) => ⟨[Call.Encode request], some (none, some err)⟩
  | (aduRequest, none) =>
    match mb.transporter aduRequest with
    | (_, some err) => ⟨[Call.Encode request, Call.Send aduRequest], some (none, some err)⟩
    | (aduResponse, none) =>
      let calls := [Call.Encode request, Call.Send aduRequest, Call.Decode aduResponse]
      match mb.decoder aduResponse with
      | (response, some err) => ⟨calls, some (response, some err)⟩
      | (none, none) => ⟨calls, none⟩
      | (some response, none) =>
        if response.FunctionCode ≠ request.FunctionCode then
          ⟨calls, some (some response, some (responseError response))⟩
        else if response.Data = none ∨ len response.Data = 0 then
          ⟨calls, some (some response, some Err.ErrResponse)⟩
        else
          ⟨calls, some (some response, none)⟩

/-- The method `client.ReadCoils`: returns `(results, err)`. -/
def client.ReadCoils (mb : client) (address quantity : Nat) : Run (Slice × Option Err) :=
  let request : ProtocolDataUnit :=
    { FunctionCode := FuncCodeReadCoils, Data := some (dataBlock [address, quantity]) }
  match mb.send request with
  | ⟨calls, none⟩ => ⟨calls, none⟩
  | ⟨calls, some (_, some err)⟩ => ⟨calls, some (none, some err)⟩
  | ⟨calls, some (none, none)⟩ => ⟨calls, none⟩
  | ⟨calls, some (some response, none)⟩ =>
    match response.Data.getD [] with
    | [] => ⟨calls, none⟩
    | b0 :: _ =>
      let count : Int := b0
      if count ≠ (len response.Data : Int) - 1 then
        ⟨calls, some (none, some Err.ErrResponseSize)⟩
      else
        ⟨calls, some (some ((response.Data.getD []).drop 1), none)⟩

/-- The method `client.ReadDiscreteInputs`: returns `(results, err)`. -/
def client.ReadDiscreteInputs (mb : client) (address quantity : Nat) :
    Run (Slice × Option Err) :=
  let request : ProtocolDataUnit :=
    { FunctionCode := FuncCodeReadDiscreteInputs, Data := some (dataBlock [address, quantity]) }
  match mb.send request with
  | ⟨calls, none⟩ => ⟨calls, none⟩
  | ⟨calls, some (_, some err)⟩ => ⟨calls, some (none, some err)⟩
  | ⟨calls, some (none, none)⟩ => ⟨calls, none⟩
  | ⟨calls, some (some response, none)⟩ =>
    match response.Data.getD [] with
    | [] => ⟨calls, none⟩
    | b0 :: _ =>
      let count : Int := b0
      if count ≠ (len response.Data : Int) - 1 then
        ⟨calls, some (none, some Err.ErrResponseSize)⟩
      else
        ⟨calls, some (some ((response.Data.getD []).drop 1), none)⟩

/-- The method `client.ReadHoldingRegisters`: returns `(results, err)`. -/
def client.ReadHoldingRegisters (mb : client) (address quantity : Nat) :
    Run (Slice × Option Err) :=
  let request : ProtocolDataUnit :=
    { FunctionCode := FuncCodeReadHoldingRegisters, Data := some (dataBlock [address, quantity]) }
  match mb.send request with
  | ⟨calls, none⟩ => ⟨calls, none⟩
  | ⟨calls, some (_, some err)⟩ => ⟨calls, some (none, some err)⟩
  | ⟨calls, some (none, none)⟩ => ⟨calls, none⟩
  | ⟨calls, some (some response, none)⟩ =>
    match response.Data.getD [] with
    | [] => ⟨calls, none⟩
    | b0 :: _ =>
      let count : Int := b0
      if count ≠ (len response.Data : Int) - 1 then
        ⟨calls, some (none, some Err.ErrResponseSize)⟩
      else
        ⟨calls, some (some ((response.Data.getD []).drop 1), none)⟩

/-- The method `client.ReadInputRegisters`: returns `(results, err)`. -/
def client.ReadInputRegisters (mb : client) (address quantity : Nat) :
    Run (Slice × Option Err) :=
  let request : ProtocolDataUnit :=
    { FunctionCode := FuncCodeReadInputRegisters, Data := some (dataBlock [address, quantity]) }
  match mb.send request with
  | ⟨calls, none⟩ => ⟨calls, none⟩
  | ⟨calls, some (_, some err)⟩ => ⟨calls, some (none, some err)⟩
  | ⟨calls, some (none, none)⟩ => ⟨calls, none⟩
  | ⟨calls, some (some response, none)⟩ =>
    match response.Data.getD [] with
    | [] => ⟨calls, none⟩
    | b0 :: _ =>
      let count : Int := b0
      if count ≠ (len response.Data : Int) - 1 then
        ⟨calls, some (none, some Err.ErrResponseSize)⟩
      else
        ⟨calls, some (some ((response.Data.getD []).drop 1), none)⟩

/-- The method `client.WriteSingleCoil`: returns `(results, err)`. -/
def client.WriteSingleCoil (mb : client) (address value : Nat) : Run (Slice × Option Err) :=
  if value ≠ 0xFF00 ∧ value ≠ 0x0000 then
    ⟨[], some (none, some Err.ErrBadRequest)⟩
  else
    let request : ProtocolDataUnit :=
      { FunctionCode := FuncCodeWriteSingleCoil, Data := some (dataBlock [address, value]) }
    match mb.send request with
    | ⟨calls, none⟩ => ⟨calls, none⟩
    | ⟨calls, some (_, some err)⟩ => ⟨calls, some (none, some err)⟩
    | ⟨calls, some (none, none)⟩ => ⟨calls, none⟩
    | ⟨calls, some (some response, none)⟩ =>
      if len response.Data ≠ 4 then
        ⟨calls, some (none, some Err.ErrResponseSize)⟩
      else
        match Uint16 (response.Data.getD []) with
        | none => ⟨calls, none⟩
        | some echo =>
          if address ≠ echo then
            ⟨calls, some (none, some Err.ErrResponse)⟩
          else
            ⟨calls, some (some ((response.Data.getD []).drop 2), none)⟩

/-- The method `client.WriteSingleRegister`: returns `(results, err)`. -/
def client.WriteSingleRegister (mb : client) (address value : Nat) :
    Run (Slice × Option Err) :=
  let request : ProtocolDataUnit :=
    { FunctionCode := FuncCodeWriteSingleRegister, Data := some (dataBlock [address, value]) }
  match mb.send request with
  | ⟨calls, none⟩ => ⟨calls, none⟩
  | ⟨calls, some (_, some err)⟩ => ⟨calls, some (none, some err)⟩
  | ⟨calls, some (none, none)⟩ => ⟨calls, none⟩
  | ⟨calls, some (some response, none)⟩ =>
    if len response.Data ≠ 4 then
      ⟨calls, some (none, some Err.ErrResponseSize)⟩
    else
      match Uint16 (response.Data.getD []) with
      | none => ⟨calls, none⟩
      | some echo =>
        if address ≠ echo then
          ⟨calls, some (none, some Err.ErrResponse)⟩
        else
          ⟨calls, some (some ((response.Data.getD []).drop 2), none)⟩

/-- The method `client.WriteMultipleCoils`: returns `(results, err)`. -/
def client.WriteMultipleCoils (mb : client) (address quantity : Nat) (value : List Nat) :
    Run (Slice × Option Err) :=
  let request : ProtocolDataUnit :=
    { FunctionCode := FuncCodeWriteMultipleCoils,
      Data := some (dataBlockSuffix value [address, quantity]) }
  match mb.send request with
  | ⟨calls, none⟩ => ⟨calls, none⟩
  | ⟨calls, some (_, some err)⟩ => ⟨calls, some (none, some err)⟩
  | ⟨calls, some (none, none)⟩ => ⟨calls, none⟩
  | ⟨calls, some (some response, none)⟩ =>
    if len response.Data ≠ 4 then
      ⟨calls, some (none, some Err.ErrResponseSize)⟩
    else
      match Uint16 (response.Data.getD []) with
      | none => ⟨calls, none⟩
      | some echo =>
        if address ≠ echo then
          ⟨calls, some (none, some Err.ErrResponse)⟩
        else
          ⟨calls, some (some ((response.Data.getD []).drop 2), none)⟩

/-- The method `client.WriteMultipleRegisters`: returns `(results, err)`. -/
def client.WriteMultipleRegisters (mb : client) (address quantity : Nat) (value : List Nat) :
    Run (Slice × Option Err) :=
  let request : ProtocolDataUnit :=
    { FunctionCode := FuncCodeWriteMultipleRegisters,
      Data := some (dataBlockSuffix value [address, quantity]) }
  match mb.send request with
  | ⟨calls, none⟩ => ⟨calls, none⟩
  | ⟨calls, some (_, some err)⟩ => ⟨calls, some (none, some err)⟩
  | ⟨calls, some (none, none)⟩ => ⟨calls, none⟩
  | ⟨calls, some (some response, none)⟩ =>
    if len response.Data ≠ 4 then
      ⟨calls, some (none, some Err.ErrResponseSize)⟩
    else
      match Uint16 (response.Data.getD []) with
      | none => ⟨calls, none⟩
      | some echo =>
        if address ≠ echo then
          ⟨calls, some (none, some Err.ErrResponse)⟩
        else
          ⟨calls, some (some ((response.Data.getD []).drop 2), none)⟩

/-- The method `client.ReadWriteMultipleRegisters`: returns `(results, err)`. -/
def client.ReadWriteMultipleRegisters (mb : client)
    (readAddress readQuantity writeAddress writeQuantity : Nat) (value : List Nat) :
    Run (Slice × Option Err) :=
  let request : ProtocolDataUnit :=
    { FunctionCode := FuncCodeReadWriteMultipleRegisters,
      Data := some (dataBlockSuffix value
        [readAddress, readQuantity, writeAddress, writeQuantity]) }
  match mb.send request with
  | ⟨calls, none⟩ => ⟨calls, none⟩
  | ⟨calls, some (_, some err)⟩ => ⟨calls, some (none, some err)⟩
  | ⟨calls, some (none, none)⟩ => ⟨calls, none⟩
  | ⟨calls, some (some response, none)⟩ =>
    match response.Data.getD [] with
    | [] => ⟨calls, none⟩
    | b0 :: _ =>
      let count : Int := b0
      if count ≠ (len response.Data : Int) - 1 then
        ⟨calls, some (none, some Err.ErrResponse)⟩
      else
        ⟨calls, some (some ((response.Data.getD []).drop 1), none)⟩

/-! ## Fixtures -/

/-- A client whose encoder frames the request as function code followed by
data, whose transporter succeeds, and whose decoder returns a fixed response
whatever it is given. -/
def cannedClient (response : ProtocolDataUnit) : client where
  encoder := fun pdu => (some (pdu.FunctionCode :: pdu.Data.getD []), none)
  transporter := fun _ => (some (response.FunctionCode :: response.Data.getD []), none)
  decoder := fun _ => (some response, none)

/-- A frame of 257 bytes with a correct checksum: 255 zero bytes followed by
the low and the high byte of their CRC-16. -/
def longFrame : List Nat := List.replicate 255 0 ++ [142, 63]

/-! ## Client, continued (`client.go`) -/

/-- The method `client.MaskWriteRegister`: returns `(results, err)`. -/
def client.MaskWriteRegister (mb : client) (address andMask orMask : Nat) :
    Run (Slice × Option Err) :=
  let request : ProtocolDataUnit :=
    { FunctionCode := FuncCodeMaskWriteRegister,
      Data := some (dataBlock [address, andMask, orMask]) }
  match mb.send request with
  | ⟨calls, none⟩ => ⟨calls, none⟩
  | ⟨calls, some (_, some err)⟩ => ⟨calls, some (none, some err)⟩
  | ⟨calls, some (none, none)⟩ => ⟨calls, none⟩
  | ⟨calls, some (some response, none)⟩ =>
    if len response.Data ≠ 6 then
      ⟨calls, some (none, some Err.ErrResponseSize)⟩
    else
      match Uint16 (response.Data.getD []) with
      | none => ⟨calls, none⟩
      | some echo =>
        if address ≠ echo then
          ⟨calls, some (none, some Err.ErrResponse)⟩
        else
          match Uint16 ((response.Data.getD []).drop 2) with
          | none => ⟨calls, none⟩
          | some echoAnd =>
            if andMask ≠ echoAnd then
              ⟨calls, some (none, some Err.ErrResponse)⟩
            else
              match Uint16 ((response.Data.getD []).drop 4) with
              | none => ⟨calls, none⟩
              | some echoOr =>
                if orMask ≠ echoOr then
                  ⟨calls, some (none, some Err.ErrResponse)⟩
                else
                  ⟨calls, some (some ((response.Data.getD []).drop 2), none)⟩

/-! ## RTU framer and serial transport, continued (`rtuclient.go`) -/

/-- The method `rtuPackager.Verify`: returns `err`; `none` is the
index-out-of-range panic of `aduRequest[0]` on an empty request. -/
def rtuPackager.Verify (aduRequest aduResponse : List Nat) : Option (Option Err) :=
  let length := aduResponse.length
  if length < rtuMinSize then
    some (some (Err.ResponseTooShort length rtuMinSize))
  else
    match aduResponse, aduRequest with
    | r0 :: _, q0 :: _ =>
      if r0 ≠ q0 then some (some (Err.SlaveIdMismatch r0 q0)) else some none
    | _, _ => none

/-- The function code of the FIFO queue read; like the other function codes it
is declared outside the available sources and has the value fixed by the
protocol. -/
def FuncCodeReadFIFOQueue : Nat := 24

/-- The function `calculateResponseLength`; `none` is the run-time panic on a
frame too short for the bytes it reads (`adu[1]`, and `adu[4:]` read as a
`uint16`). -/
def calculateResponseLength (adu : List Nat) : Option Nat :=
  let length := rtuMinSize
  match adu with
  | _ :: fc :: _ =>
    if fc = FuncCodeReadDiscreteInputs ∨ fc = FuncCodeReadCoils then
      match Uint16 (adu.drop 4) with
      | none => none
      | some count =>
        let length := length + (1 + count / 8)
        if count % 8 ≠ 0 then some (length + 1) else some length
    else if fc = FuncCodeReadInputRegisters ∨ fc = FuncCodeReadHoldingRegisters ∨
        fc = FuncCodeReadWriteMultipleRegisters then
      match Uint16 (adu.drop 4) with
      | none => none
      | some count => some (length + (1 + count * 2))
    else if fc = FuncCodeWriteSingleCoil ∨ fc = FuncCodeWriteMultipleCoils ∨
        fc = FuncCodeWriteSingleRegister ∨ fc = FuncCodeWriteMultipleRegisters then
      some (length + 4)
    else if fc = FuncCodeMaskWriteRegister then
      some (length + 6)
    else if fc = FuncCodeReadFIFOQueue then
      some length
    else
      some length
  | _ => none

/-- Wrap-around of a Go `int64` (and of `int` on a 64-bit platform). -/
def int64 (x : Int) : Int := (x + 2 ^ 63) % 2 ^ 64 - 2 ^ 63

/-- The method `rtuSerialTransporter.calculateDelay` for the baud rate `Baud`
of the port: the `time.Duration` returned, in nanoseconds. The arithmetic is
that of a 64-bit `int`; `time.Microsecond` is 1000 nanoseconds. -/
def calculateDelay (Baud : Int) (chars : Int) : Int :=
  let characterDelay : Int :=
    if Baud ≤ 0 ∨ Baud > 19200 then 750 else int64 (Int.tdiv 15000000 Baud)
  let frameDelay : Int :=
    if Baud ≤ 0 ∨ Baud > 19200 then 1750 else int64 (Int.tdiv 35000000 Baud)
  int64 (int64 (int64 (characterDelay * chars) + frameDelay) * 1000)

/-- An operation of `Send` on the serial port, in the order performed. -/
inductive PortOp where
  | connect
  | Write (aduRequest : List Nat)
  | Sleep (nanoseconds : Int)
  | ReadAtLeast (lo hi min : Nat)
  | ReadFull (lo hi : Nat)
  deriving DecidableEq, Repr

/-- The serial port as seen by one call of `Send`: the baud rate and what each
port operation returns. `ReadAtLeast` is the outcome of
`io.ReadAtLeast(port, data[:], rtuMinSize)`: the bytes stored from `data[0]` on
(their number is `n`) and the error. `ReadFull k` is the outcome of
`io.ReadFull(port, buf)` on a buffer of `k` bytes: the bytes stored (their
number is `n1`) and the error. -/
structure rtuSerialTransporter where
  Baud : Int
  connect : Option Err
  Write : List Nat → Option Err
  ReadAtLeast : List Nat × Option Err
  ReadFull : Nat → List Nat × Option Err

/-- Go `io.ReadFull(port, buf)` on a buffer of `k` bytes: on an empty buffer it
returns `(0, nil)` without reading. -/
def rtuSerialTransporter.ioReadFull (mb : rtuSerialTransporter) (k : Nat) :
    List Nat × Option Err :=
  if k = 0 then ([], none) else mb.ReadFull k

/-- One run of `Send`: the port operations performed and the values returned;
`ret = none` is a run-time panic. -/
structure SendRun where
  ops : List PortOp
  ret : Option (Slice × Option Err)
  deriving DecidableEq, Repr

/-- The method `rtuSerialTransporter.Send`: returns `(aduResponse, err)`. The
idle timer and the logging of the frames have no part in the result and are
left out. -/
def rtuSerialTransporter.Send (mb : rtuSerialTransporter) (aduRequest : List Nat) : SendRun :=
  match mb.connect with
  | some err => ⟨[PortOp.connect], some (none, some err)⟩
  | none =>
  match mb.Write aduRequest with
  | some err => ⟨[PortOp.connect, PortOp.Write aduRequest], some (none, some err)⟩
  | none =>
  match aduRequest with
  | [] => ⟨[PortOp.connect, PortOp.Write aduRequest], none⟩
  | [_] => ⟨[PortOp.connect, PortOp.Write aduRequest], none⟩
  | _ :: function :: _ =>
  let functionFail := function &&& 0x80
  match calculateResponseLength aduRequest with
  | none => ⟨[PortOp.connect, PortOp.Write aduRequest], none⟩
  | some bytesToRead =>
  let ops := [PortOp.connect, PortOp.Write aduRequest,
    PortOp.Sleep (calculateDelay mb.Baud (aduRequest.length + bytesToRead)),
    PortOp.ReadAtLeast 0 rtuMaxSize rtuMinSize]
  let data := copy (make rtuMaxSize) 0 mb.ReadAtLeast.1
  let n := mb.ReadAtLeast.1.length
  match mb.ReadAtLeast.2 with
  | some err => ⟨ops, some (none, some err)⟩
  | none =>
  if data.getD 1 0 = function then
    if n < bytesToRead ∧ (bytesToRead > rtuMinSize ∧ bytesToRead ≤ rtuMaxSize) ∧
        bytesToRead > n then
      let r := mb.ioReadFull (bytesToRead - n)
      let data := copy data n r.1
      let n1 := r.1.length
      match r.2 with
      | some err => ⟨ops ++ [PortOp.ReadFull n bytesToRead], some (none, some err)⟩
      | none =>
        ⟨ops ++ [PortOp.ReadFull n bytesToRead], some (some (slice data 0 (n + n1)), none)⟩
    else
      ⟨ops, some (some (slice data 0 n), none)⟩
  else if data.getD 1 0 = functionFail then
    if n < bytesToRead then
      if n > 5 then
        ⟨ops, none⟩
      else
        let r := mb.ioReadFull (5 - n)
        let data := copy data n r.1
        let n1 := r.1.length
        match r.2 with
        | some err => ⟨ops ++ [PortOp.ReadFull n 5], some (none, some err)⟩
        | none => ⟨ops ++ [PortOp.ReadFull n 5], some (some (slice data 0 (n + n1)), none)⟩
    else
      ⟨ops, some (some (slice data 0 n), none)⟩
  else
    ⟨ops, some (some (slice data 0 n), none)⟩

/-! ## TCP server (`tcpserver.go`) -/

/-- Exception codes. Like the function codes they are declared outside the
available sources and have the values fixed by the Modbus protocol. -/
def ExceptionCodeIllegalFunction : Nat := 1

def ExceptionCodeIllegalDataAddress : Nat := 2

/-- The function `encodeMbError`. -/
def encodeMbError (uintid fc ex : Nat) : PDUwithSlaveid :=
  { SlaveID := uintid, FunctionCode := fc ||| 0x80, Data := some [ex] }

/-- A call made by the dispatch function to the application handler. -/
inductive HandlerCall where
  | ReadHoldingRegisters (slaveid address quantity : Nat)
  | WriteSingleRegister (slaveid address value : Nat)
  deriving DecidableEq, Repr

/-- The interface `mbHandler`: what one call of each method returns; `none` is
a panic inside the handler. -/
structure mbHandler where
  ReadHoldingRegisters : Nat → Nat → Nat → Option (List Nat × Option Err)
  WriteSingleRegister : Nat → Nat → Nat → Option (Option Err)

/-- One run of the dispatch function: the handler calls it made and the
response it returned; `ret = none` is a run-time panic. -/
structure DispatchRun where
  calls : List HandlerCall
  ret : Option PDUwithSlaveid
  deriving DecidableEq, Repr

/-- The function that `ServeModbus` passes to `serve`: the dispatch of one
decoded request PDU to the handler. -/
def ServeModbus.dispatch (handler : mbHandler) (pdu : PDUwithSlaveid) : DispatchRun :=
  if pdu.FunctionCode = FuncCodeReadHoldingRegisters then
    match Uint16 (pdu.Data.getD []) with
    | none => ⟨[], none⟩
    | some address =>
      match Uint16 ((pdu.Data.getD []).drop 2) with
      | none => ⟨[], none⟩
      | some quantity =>
        match handler.ReadHoldingRegisters pdu.SlaveID address quantity with
        | none => ⟨[HandlerCall.ReadHoldingRegisters pdu.SlaveID address quantity], none⟩
        | some (_, some _) =>
          ⟨[HandlerCall.ReadHoldingRegisters pdu.SlaveID address quantity],
            some (encodeMbError pdu.SlaveID pdu.FunctionCode ExceptionCodeIllegalDataAddress)⟩
        | some (data, none) =>
          let lenbyte := [byte (data.length * 2)]
          ⟨[HandlerCall.ReadHoldingRegisters pdu.SlaveID address quantity],
            some { SlaveID := pdu.SlaveID, FunctionCode := pdu.FunctionCode,
                   Data := some (lenbyte ++ dataBlock data) }⟩
  else if pdu.FunctionCode = FuncCodeWriteSingleRegister then
    match Uint16 (pdu.Data.getD []) with
    | none => ⟨[], none⟩
    | some address =>
      match Uint16 ((pdu.Data.getD []).drop 2) with
      | none => ⟨[], none⟩
      | some value =>
        match handler.WriteSingleRegister pdu.SlaveID address value with
        | none => ⟨[HandlerCall.WriteSingleRegister pdu.SlaveID address value], none⟩
        | some (some _) =>
          ⟨[HandlerCall.WriteSingleRegister pdu.SlaveID address value],
            some (encodeMbError pdu.SlaveID pdu.FunctionCode ExceptionCodeIllegalDataAddress)⟩
        | some none =>
          ⟨[HandlerCall.WriteSingleRegister pdu.SlaveID address value], some pdu⟩
  else
    ⟨[], some (encodeMbError pdu.SlaveID pdu.FunctionCode ExceptionCodeIllegalFunction)⟩

/-- The test handler `h` of `tcpserver_test.go`: a register array. -/
structure h where
  data : List Nat
  deriving DecidableEq, Repr

/-- The method `h.ReadHoldingRegisters`, on `uint16` arguments: returns
`(buf, err)`; `none` is the slice-bounds panic of `s.data[address:address+quantity]`
(the capacity of `s.data` is its length). -/
def h.ReadHoldingRegisters (s : h) (_slaveid address quantity : Nat) :
    Option (List Nat × Option Err) :=
  if address < uint16 s.data.length ∧
      uint16 (address + quantity + 65535) < uint16 s.data.length then
    if address ≤ uint16 (address + quantity) ∧ uint16 (address + quantity) ≤ s.data.length then
      some (slice s.data address (uint16 (address + quantity)), none)
    else
      none
  else
    some ([], some (Err.Errorf "out of range"))

/-- The method `h.WriteSingleRegister`: returns the handler after the call and
`err`. -/
def h.WriteSingleRegister (s : h) (_slaveid address value : Nat) : h × Option Err :=
  if address < uint16 s.data.length then
    ({ data := s.data.set address value }, none)
  else
    (s, some (Err.Errorf "out of range"))

/-- The test handler `h` as an `mbHandler`. -/
def h.handler (s : h) : mbHandler where
  ReadHoldingRegisters := s.ReadHoldingRegisters
  WriteSingleRegister := fun slaveid address value =>
    some (s.WriteSingleRegister slaveid address value).2

/-- Modelled from the spec: the constants of the TCP framing are declared
outside the available sources. The header read by `serve` is transaction id
(2), protocol id (2), length (2) and unit id (1): 7 bytes; `serve` stores the
unit id at index 6 and the function code at index `tcpHeaderSize`. -/
def tcpHeaderSize : Nat := 7

/-- Modelled from the spec: the protocol identifier is fixed to 0. -/
def tcpProtocolIdentifier : Nat := 0

/-- The type `serverHandler`: from the decoded PDU (`none` is nil) to the
response; a result `none` is a panic in the handler or a nil response, on which
`serve` panics. -/
abbrev serverHandler := Option PDUwithSlaveid → Option PDUwithSlaveid

/-- The struct `TcpServer`, as far as the connection loop uses it: the decoder
of its packager and the maximum frame size `tcpMaxLength`, both declared
outside the available sources. -/
structure TcpServer where
  packager : List Nat → Option PDUwithSlaveid × Option Err
  tcpMaxLength : Nat

/-- What the connection delivers to one pass of the loop of `serve`: the
outcome of `io.ReadFull(c, data[:tcpHeaderSize])` (`none` when it returns an
error, else the header bytes) and, for a body of `k` bytes, the outcome of
`io.ReadFull(c, data[tcpHeaderSize:length])`. -/
structure ConnRead where
  header : Option (List Nat)
  body : Nat → Option (List Nat)

/-- An operation of the connection loop on the connection, apart from reads. -/
inductive ConnOp where
  | flush
  | Write (adu : List Nat)
  | Close
  deriving DecidableEq, Repr

/-- How one pass of the loop body of `serve` ends: with `continue` or by
reaching the end of the body (`nextPass`), with `return` (`returned`), or with a
run-time panic (`panicked`). -/
inductive Pass where
  | nextPass (ops : List ConnOp)
  | returned (ops : List ConnOp)
  | panicked (ops : List ConnOp)
  deriving DecidableEq, Repr

/-- One pass of the body of the per-connection loop of `TcpServer.serve`. -/
def TcpServer.pass (mb : TcpServer) (handler : serverHandler) (r : ConnRead) : Pass :=
  match r.header with
  | none => Pass.nextPass []
  | some header =>
    let data := copy (make mb.tcpMaxLength) 0 header
    match Uint16 data, Uint16 (data.drop 4) with
    | some transactionId, some length =>
      if (length : Int) ≤ 0 then
        Pass.returned [ConnOp.flush]
      else if (length : Int) > (mb.tcpMaxLength : Int) - ((tcpHeaderSize : Int) - 1) then
        Pass.returned [ConnOp.flush]
      else
        let length := length + (tcpHeaderSize - 1)
        match r.body (length - tcpHeaderSize) with
        | none => Pass.returned []
        | some body =>
          let data := copy data tcpHeaderSize body
          let aduRequest := slice data 0 length
          match mb.packager aduRequest with
          | (_, some _) => Pass.nextPass []
          | (pdu, none) =>
            match handler pdu with
            | none => Pass.panicked []
            | some resp =>
              let adu := make (tcpHeaderSize + 1 + len resp.Data)
              let adu := PutUint16 adu 0 (uint16 transactionId)
              let adu := PutUint16 adu 2 tcpProtocolIdentifier
              let adu := PutUint16 adu 4 (uint16 (1 + 1 + len resp.Data))
              let adu := adu.set 6 resp.SlaveID
              let adu := adu.set tcpHeaderSize resp.FunctionCode
              let adu := copy adu (tcpHeaderSize + 1) (resp.Data.getD [])
              Pass.nextPass [ConnOp.Write adu]
    | _, _ => Pass.panicked []

/-- The goroutine that `serve` starts for one accepted connection, run on the
reads the connection delivers to its successive passes: the operations
performed, and whether the goroutine has ended (`true`, the deferred
`c.Close()` has run) or is still in the loop after these passes (`false`). -/
def TcpServer.connection (mb : TcpServer) (handler : serverHandler) :
    List ConnRead → List ConnOp × Bool
  | [] => ([], false)
  | r :: rs =>
    match mb.pass handler r with
    | Pass.nextPass ops => (ops ++ (mb.connection handler rs).1, (mb.connection handler rs).2)
    | Pass.returned ops => (ops ++ [ConnOp.Close], true)
    | Pass.panicked ops => (ops ++ [ConnOp.Close], true)

/-- The `serverHandler` built by `ServeModbus` from an `mbHandler`. -/
def ServeModbus.serverHandler (handler : mbHandler) : serverHandler := fun pdu =>
  match pdu with
  | none => none
  | some pdu => (ServeModbus.dispatch handler pdu).ret

/-! ## Fixtures, continued -/

/-- A serial port that connects and writes without error, whose minimum read
returns `first`, and which then has the bytes `more` to deliver: a later
`io.ReadFull` for `k` bytes succeeds when `k` of them are there and otherwise
returns what there is with an error. -/
def cannedPort (first more : List Nat) : rtuSerialTransporter where
  Baud := 19200
  connect := none
  Write := fun _ => none
  ReadAtLeast := (first, none)
  ReadFull := fun k =>
    if k ≤ more.length then (more.take k, none) else (more, some (Err.External 0))

/-- The register array of the test `Test_tcpServer_Serve`. -/
def testRegisters : h := { data := [10001, 2, 3, 4, 5, 6, 7, 8, 9, 10] }

/-- A TCP server whose decoder takes the unit id at index 6, the function code
at index 7 and the data from index 8 on, with maximum frame size 260. -/
def cannedServer : TcpServer where
  packager := fun adu =>
    (some { SlaveID := adu.getD 6 0, FunctionCode := adu.getD 7 0, Data := some (adu.drop 8) },
      none)
  tcpMaxLength := 260

/-- A pass in which the read of the header fails. -/
def failedHeader : ConnRead where
  header := none
  body := fun _ => none

/-- A pass that delivers one whole request frame: its first 7 bytes as header
and the rest as body. -/
def wholeFrame (adu : List Nat) : ConnRead where
  header := some (adu.take 7)
  body := fun k => if k = (adu.drop 7).length then some (adu.drop 7) else none

/-! # Theorems -/

/-! ## Lemmas on the Go primitives -/

theorem make_add_four (m : Nat) : make (m + 4) = 0 :: 0 :: (List.replicate m 0 ++ [0, 0]) := by
  unfold make
  rw [show m + 4 = 2 + (m + 2) by omega, List.replicate_add, List.replicate_add]
  rfl

theorem drop_replicate_trailer (m : Nat) (t : List Nat) :
    List.drop m (List.replicate m 0 ++ t) = t := by
  induction m with
  | zero => rfl
  | succ m ih => simp [List.replicate_succ, ih]

theorem copy_frame (a f : Nat) (d : List Nat) :
    copy (a :: f :: (List.replicate d.length 0 ++ [0, 0])) 2 d = a :: f :: (d ++ [0, 0]) := by
  unfold copy
  have h : List.drop (2 + d.length) (a :: f :: (List.replicate d.length 0 ++ [0, 0])) = [0, 0] := by
    rw [show 2 + d.length = d.length + 1 + 1 by omega, List.drop_succ_cons, List.drop_succ_cons]
    exact drop_replicate_trailer _ _
  simp [h]

theorem set_trailer (l : List Nat) (x y lo hi : Nat) :
    ((l ++ [x, y]).set (l.length + 1) hi).set l.length lo = l ++ [lo, hi] := by
  induction l with
  | nil => rfl
  | cons a l ih => simp [ih]

theorem slice_frame (l t : List Nat) : slice (l ++ t) 0 l.length = l := by
  simp [slice]

/-- Every byte sequence of at least four bytes splits into address, function
code, data and the two trailing bytes. -/
theorem frame_cases (adu : List Nat) (h : 4 ≤ adu.length) :
    ∃ a f d lo hi, adu = a :: f :: (d ++ [lo, hi]) := by
  rcases List.eq_nil_or_concat adu with rfl | ⟨l1, hi, rfl⟩
  · simp at h
  rcases List.eq_nil_or_concat l1 with rfl | ⟨l2, lo, rfl⟩
  · simp at h
  match l2, h with
  | a :: f :: d, _ => exact ⟨a, f, d, lo, hi, by simp⟩
  | [a], h => simp at h
  | [], h => simp at h

/-- The 16-bit value read from the trailer: last byte high, the byte before it
low. -/
theorem checksum_bytes (lo hi : Nat) (hlo : lo < 256) (hhi : hi < 256) :
    uint16 ((uint16 hi) <<< 8) ||| uint16 lo = 256 * hi + lo := by
  unfold uint16
  rw [Nat.mod_eq_of_lt (by omega : hi < 65536), Nat.mod_eq_of_lt (by omega : lo < 65536),
    Nat.shiftLeft_eq, Nat.mod_eq_of_lt (by omega : hi * 2 ^ 8 < 65536), Nat.mul_comm]
  exact (Nat.mul_add_lt_is_or (by simpa using hlo) hi).symm

/-! ## The framer in closed form -/

theorem Encode_eq (pdu : PDUwithSlaveid) (h : len pdu.Data + 4 ≤ 256) :
    rtuPackager.Encode pdu =
      (some ([pdu.SlaveID, pdu.FunctionCode] ++ pdu.Data.getD [] ++
        [byte (crc16 ([pdu.SlaveID, pdu.FunctionCode] ++ pdu.Data.getD [])),
         byte (crc16 ([pdu.SlaveID, pdu.FunctionCode] ++ pdu.Data.getD []) >>> 8)]), none) := by
  unfold rtuPackager.Encode
  have hlen : len pdu.Data = (pdu.Data.getD []).length := rfl
  simp only [rtuMaxSize, hlen] at h ⊢
  rw [if_neg (by omega)]
  simp only [make_add_four, List.set_cons_zero, List.set_cons_succ, copy_frame]
  generalize pdu.Data.getD [] = d
  have e1 : pdu.SlaveID :: pdu.FunctionCode :: (d ++ [0, 0])
      = (pdu.SlaveID :: pdu.FunctionCode :: d) ++ [0, 0] := rfl
  have e2 : d.length + 4 - 2 = (pdu.SlaveID :: pdu.FunctionCode :: d).length := by simp
  have e3 : d.length + 4 - 1 = (pdu.SlaveID :: pdu.FunctionCode :: d).length + 1 := by simp
  rw [e1, e2, e3, slice_frame, set_trailer]
  rfl

theorem Encode_too_long (pdu : PDUwithSlaveid) (h : 256 < len pdu.Data + 4) :
    rtuPackager.Encode pdu = (none, some (Err.FrameTooLong (len pdu.Data + 4) 256)) := by
  unfold rtuPackager.Encode
  simp only [rtuMaxSize]
  rw [if_pos (by omega)]

theorem Decode_too_short (adu : List Nat) (h : adu.length < 4) :
    rtuPackager.Decode adu = (none, some Err.FrameTooShort) := by
  unfold rtuPackager.Decode
  simp only []
  rw [if_pos h]

theorem Decode_frame (a f lo hi : Nat) (d : List Nat) :
    rtuPackager.Decode (a :: f :: (d ++ [lo, hi])) =
      if uint16 ((uint16 hi) <<< 8) ||| uint16 lo ≠ crc16 (a :: f :: d) then
        (none, some (Err.CrcMismatch (uint16 ((uint16 hi) <<< 8) ||| uint16 lo)
          (crc16 (a :: f :: d))))
      else
        (some { SlaveID := a, FunctionCode := f, Data := some d }, none) := by
  unfold rtuPackager.Decode
  have hn : (a :: f :: (d ++ [lo, hi])).length = d.length + 4 := by simp
  simp only [hn]
  rw [if_neg (by omega)]
  have e1 : a :: f :: (d ++ [lo, hi]) = (a :: f :: d) ++ [lo, hi] := rfl
  have e2 : d.length + 4 - 2 = (a :: f :: d).length := by simp
  have h1 : slice (a :: f :: (d ++ [lo, hi])) 0 (d.length + 4 - 2) = a :: f :: d := by
    rw [e1, e2, slice_frame]
  have h2 : slice (a :: f :: (d ++ [lo, hi])) 2 (d.length + 4 - 2) = d := by
    rw [e1, e2]; simp [slice]
  have h3 : (a :: f :: (d ++ [lo, hi])).getD (d.length + 4 - 1) 0 = hi := by
    rw [e1, show d.length + 4 - 1 = (a :: f :: d).length + 1 by simp]
    rw [List.getD_append_right _ _ _ _ (by omega)]
    simp
  have h4 : (a :: f :: (d ++ [lo, hi])).getD (d.length + 4 - 2) 0 = lo := by
    rw [e1, e2, List.getD_append_right _ _ _ _ (by omega)]
    simp
  rw [h1, h2, h3, h4]
  rfl

theorem frame_length (a f lo hi : Nat) (d : List Nat) :
    (a :: f :: (d ++ [lo, hi])).length = d.length + 4 := by simp

theorem frame_getD_last (a f lo hi : Nat) (d : List Nat) :
    (a :: f :: (d ++ [lo, hi])).getD (d.length + 4 - 1) 0 = hi := by
  have e1 : a :: f :: (d ++ [lo, hi]) = (a :: f :: d) ++ [lo, hi] := rfl
  rw [e1, show d.length + 4 - 1 = (a :: f :: d).length + 1 by simp]
  rw [List.getD_append_right _ _ _ _ (by omega)]
  simp

theorem frame_getD_prev (a f lo hi : Nat) (d : List Nat) :
    (a :: f :: (d ++ [lo, hi])).getD (d.length + 4 - 2) 0 = lo := by
  have e1 : a :: f :: (d ++ [lo, hi]) = (a :: f :: d) ++ [lo, hi] := rfl
  rw [e1, show d.length + 4 - 2 = (a :: f :: d).length by simp]
  rw [List.getD_append_right _ _ _ _ (by omega)]
  simp

theorem frame_take (a f lo hi : Nat) (d : List Nat) :
    (a :: f :: (d ++ [lo, hi])).take (d.length + 4 - 2) = a :: f :: d := by
  have e1 : a :: f :: (d ++ [lo, hi]) = (a :: f :: d) ++ [lo, hi] := rfl
  rw [e1, show d.length + 4 - 2 = (a :: f :: d).length by simp]
  simp

theorem frame_data (a f lo hi : Nat) (d : List Nat) :
    ((a :: f :: (d ++ [lo, hi])).drop 2).take (d.length + 4 - 4) = d := by
  simp

theorem trailer_bytes (lo hi : Nat) (hlo : lo < 256) (hhi : hi < 256) :
    byte (256 * hi + lo) = lo ∧ byte ((256 * hi + lo) >>> 8) = hi := by
  unfold byte
  rw [Nat.shiftRight_eq_div_pow]
  constructor <;> omega

/-- Below the frame ceiling the round trip holds: a frame of at most 256 bytes
that decodes without error is reproduced by encoding the decoded PDU. -/
theorem Decode_Encode_of_le (adu : List Nat) (hb : ∀ b ∈ adu, b < 256)
    (hlen : adu.length ≤ 256) (p : PDUwithSlaveid)
    (h : rtuPackager.Decode adu = (some p, none)) :
    rtuPackager.Encode p = (some adu, none) := by
  by_cases h4 : adu.length < 4
  · rw [Decode_too_short adu h4] at h
    simp at h
  obtain ⟨a, f, d, lo, hi, rfl⟩ := frame_cases adu (by omega)
  have hlo : lo < 256 := hb lo (by simp)
  have hhi : hi < 256 := hb hi (by simp)
  rw [Decode_frame, checksum_bytes lo hi hlo hhi] at h
  split at h
  · simp at h
  · rename_i hc
    have hc : 256 * hi + lo = crc16 (a :: f :: d) := not_not.mp hc
    have hp : p = { SlaveID := a, FunctionCode := f, Data := some d } := by
      simpa using h.symm
    subst hp
    rw [frame_length] at hlen
    rw [Encode_eq _ (by simpa [len] using hlen)]
    simp only [Option.getD_some, List.cons_append, List.nil_append]
    rw [← hc, (trailer_bytes lo hi hlo hhi).1, (trailer_bytes lo hi hlo hhi).2]

/-- Above the frame ceiling the round trip fails: a frame of more than 256
bytes that decodes without error is refused by `Encode`. -/
theorem Decode_Encode_of_gt (adu : List Nat) (hlen : 256 < adu.length) (p : PDUwithSlaveid)
    (h : rtuPackager.Decode adu = (some p, none)) :
    rtuPackager.Encode p = (none, some (Err.FrameTooLong adu.length 256)) := by
  obtain ⟨a, f, d, lo, hi, rfl⟩ := frame_cases adu (by omega)
  rw [Decode_frame] at h
  split at h
  · simp at h
  · have hp : p = { SlaveID := a, FunctionCode := f, Data := some d } := by
      simpa using h.symm
    subst hp
    rw [frame_length] at hlen ⊢
    exact Encode_too_long _ (by simpa [len] using hlen)

/-! ## Claims on the RTU framer -/

/-- C1, at a failing input: the 257-byte frame `longFrame` (255 zero bytes and
their CRC-16, low byte first) is a sequence of bytes that `Decode` accepts, but
`Encode` refuses the decoded PDU with the frame-too-long error, so the round
trip does not reproduce the frame and the harness `Fuzz` panics on it. -/
theorem roundtrip_fails_on_longFrame :
    longFrame.length = 257 ∧ (∀ b ∈ longFrame, b < 256) ∧
    rtuPackager.Decode longFrame =
      (some { SlaveID := 0, FunctionCode := 0, Data := some (List.replicate 253 0) }, none) ∧
    rtuPackager.Encode { SlaveID := 0, FunctionCode := 0, Data := some (List.replicate 253 0) }
      = (none, some (Err.FrameTooLong 257 256)) ∧
    Fuzz longFrame = FuzzOutcome.panicEncode (Err.FrameTooLong 257 256) := by
  decide!

/-- C2: whenever `Decode` returns an error the PDU it returns is nil, and the
error is the too-short error for a frame under 4 bytes and a CRC mismatch
(between two different values) otherwise. -/
theorem Decode_error_returns_nil_pdu (adu : List Nat) (e : Err)
    (h : (rtuPackager.Decode adu).2 = some e) :
    (rtuPackager.Decode adu).1 = none ∧
    ((adu.length < 4 ∧ e = Err.FrameTooShort) ∨
     (4 ≤ adu.length ∧ ∃ c, c ≠ crc16 (adu.take (adu.length - 2)) ∧
        e = Err.CrcMismatch c (crc16 (adu.take (adu.length - 2))))) := by
  by_cases h4 : adu.length < 4
  · rw [Decode_too_short adu h4] at h ⊢
    simp only [Option.some.injEq] at h
    exact ⟨rfl, Or.inl ⟨h4, h.symm⟩⟩
  obtain ⟨a, f, d, lo, hi, rfl⟩ := frame_cases adu (by omega)
  rw [Decode_frame] at h ⊢
  rw [frame_length, frame_take]
  split at h
  · rename_i hc
    rw [if_pos hc]
    simp only [Option.some.injEq] at h
    exact ⟨rfl, Or.inr ⟨by omega, _, hc, h.symm⟩⟩
  · simp at h

/-- Witness for C2 on the three-byte frame `01 03 00`. -/
theorem Decode_error_returns_nil_pdu_witness :
    (rtuPackager.Decode [1, 3, 0]).1 = none ∧
    (([1, 3, 0] : List Nat).length < 4 ∧ Err.FrameTooShort = Err.FrameTooShort ∨
     (4 ≤ ([1, 3, 0] : List Nat).length ∧
        ∃ c, c ≠ crc16 (([1, 3, 0] : List Nat).take (([1, 3, 0] : List Nat).length - 2)) ∧
        Err.FrameTooShort = Err.CrcMismatch c
          (crc16 (([1, 3, 0] : List Nat).take (([1, 3, 0] : List Nat).length - 2))))) :=
  Decode_error_returns_nil_pdu [1, 3, 0] Err.FrameTooShort (by decide)

/-- C3: `Encode` returns an error exactly when `len(d) + 4 > 256`, and then no
frame; otherwise it returns, without error, the frame `[a, f] ++ d ++ [lo, hi]`
of length `len(d) + 4`, where `lo` and `hi` are the low and the high byte of the
CRC-16 of `[a, f] ++ d`. -/
theorem Encode_spec (a f : Nat) (d : Slice) :
    ((rtuPackager.Encode { SlaveID := a, FunctionCode := f, Data := d }).2 ≠ none ↔
      len d + 4 > 256) ∧
    (if len d + 4 > 256 then
      (rtuPackager.Encode { SlaveID := a, FunctionCode := f, Data := d }).1 = none
    else
      rtuPackager.Encode { SlaveID := a, FunctionCode := f, Data := d } =
        (some ([a, f] ++ d.getD [] ++
          [crc16 ([a, f] ++ d.getD []) % 256, crc16 ([a, f] ++ d.getD []) / 256 % 256]), none) ∧
      ([a, f] ++ d.getD [] ++
          [crc16 ([a, f] ++ d.getD []) % 256, crc16 ([a, f] ++ d.getD []) / 256 % 256]).length
        = len d + 4) := by
  by_cases h : len d + 4 > 256
  · rw [if_pos h, Encode_too_long _ h]
    simp [h]
  · rw [if_neg h, Encode_eq _ (by simpa using h)]
    refine ⟨by simp [h], ?_, by simp [len]⟩
    simp [byte, Nat.shiftRight_eq_div_pow]

/-- C4: on a sequence of bytes, `Decode` fails when the frame has fewer than 4
bytes; on a frame of at least 4 bytes it fails exactly when the 16-bit value
with the last byte as high byte and the byte before it as low byte differs from
the CRC-16 of all bytes but the last two; and whenever it succeeds it returns
slave id `adu[0]`, function code `adu[1]` and data `adu[2 .. len-2)`. -/
theorem Decode_spec (adu : List Nat) (hb : ∀ b ∈ adu, b < 256) :
    (adu.length < 4 → (rtuPackager.Decode adu).2 ≠ none) ∧
    (4 ≤ adu.length →
      ((rtuPackager.Decode adu).2 ≠ none ↔
        256 * adu.getD (adu.length - 1) 0 + adu.getD (adu.length - 2) 0
          ≠ crc16 (adu.take (adu.length - 2)))) ∧
    ((rtuPackager.Decode adu).2 = none →
      rtuPackager.Decode adu =
        (some { SlaveID := adu.getD 0 0, FunctionCode := adu.getD 1 0,
                Data := some ((adu.drop 2).take (adu.length - 4)) }, none)) := by
  by_cases h4 : adu.length < 4
  · rw [Decode_too_short adu h4]
    exact ⟨fun _ => by simp, fun h => by omega, fun h => by simp at h⟩
  obtain ⟨a, f, d, lo, hi, rfl⟩ := frame_cases adu (by omega)
  have hlo : lo < 256 := hb lo (by simp)
  have hhi : hi < 256 := hb hi (by simp)
  rw [Decode_frame, checksum_bytes lo hi hlo hhi, frame_length, frame_take, frame_getD_last,
    frame_getD_prev, frame_data]
  by_cases hc : 256 * hi + lo ≠ crc16 (a :: f :: d)
  · rw [if_pos hc]
    exact ⟨fun h => by omega, fun _ => by simp [hc], fun h => by simp at h⟩
  · rw [if_neg hc]
    exact ⟨fun h => by omega, fun _ => by simp [hc], fun _ => by simp⟩

/-- Witness for C4 on the read-holding-registers request frame
`01 03 00 00 00 0A C5 CD`. -/
theorem Decode_spec_witness :
    (∀ b ∈ ([1, 3, 0, 0, 0, 10, 197, 205] : List Nat), b < 256) ∧
    rtuPackager.Decode [1, 3, 0, 0, 0, 10, 197, 205] =
      (some { SlaveID := 1, FunctionCode := 3, Data := some [0, 0, 0, 10] }, none) :=
  ⟨by decide, by
    have h := (Decode_spec [1, 3, 0, 0, 0, 10, 197, 205] (by decide)).2.2 (by decide)
    simpa using h⟩


/-! ## Lemmas on the client -/

theorem dataBlock_pair (x y : Nat) :
    dataBlock [x, y] = [x / 256 % 256, x % 256, y / 256 % 256, y % 256] := by
  simp [dataBlock, make, PutUint16, byte, Nat.shiftRight_eq_div_pow, List.enum, List.enumFrom]

theorem Uint16_bytes (b0 b1 : Nat) (rest : List Nat) (h0 : b0 < 256) (h1 : b1 < 256) :
    Uint16 (b0 :: b1 :: rest) = some (256 * b0 + b1) := by
  show some (uint16 b1 ||| uint16 (uint16 b0 <<< 8)) = some (256 * b0 + b1)
  rw [Nat.lor_comm, checksum_bytes b1 b0 h1 h0]

/-- What `send` returns once the three collaborators have succeeded. -/
theorem send_decoded (mb : client) (request response : ProtocolDataUnit)
    (aduRequest aduResponse : Slice)
    (h1 : mb.encoder request = (aduRequest, none))
    (h2 : mb.transporter aduRequest = (aduResponse, none))
    (h3 : mb.decoder aduResponse = (some response, none)) :
    mb.send request =
      if response.FunctionCode ≠ request.FunctionCode then
        ⟨[Call.Encode request, Call.Send aduRequest, Call.Decode aduResponse],
          some (some response, some (responseError response))⟩
      else if response.Data = none ∨ len response.Data = 0 then
        ⟨[Call.Encode request, Call.Send aduRequest, Call.Decode aduResponse],
          some (some response, some Err.ErrResponse)⟩
      else
        ⟨[Call.Encode request, Call.Send aduRequest, Call.Decode aduResponse],
          some (some response, none)⟩ := by
  unfold client.send
  simp only [h1, h2, h3]

/-- A response that `send` returns without error is non-nil, carries the
function code of the request and has at least one data byte. -/
theorem send_ok_inv (mb : client) (request : ProtocolDataUnit) (calls : List Call)
    (r : Option ProtocolDataUnit) (h : mb.send request = ⟨calls, some (r, none)⟩) :
    ∃ response b0 rest, r = some response ∧
      response.FunctionCode = request.FunctionCode ∧ response.Data = some (b0 :: rest) := by
  unfold client.send at h
  split at h
  · simp at h
  · split at h
    · simp at h
    · simp only at h
      split at h
      · simp at h
      · simp at h
      · rename_i response _
        split at h
        · simp at h
        · rename_i hfc
          split at h
          · simp at h
          · rename_i hdata
            simp only [Run.mk.injEq, Option.some.injEq, Prod.mk.injEq, and_true] at h
            refine ⟨response, ?_⟩
            rcases hd : response.Data with _ | ⟨_ | ⟨b0, rest⟩⟩
            · simp [hd] at hdata
            · simp [hd, len] at hdata
            · exact ⟨b0, rest, h.2.symm, not_not.mp hfc, rfl⟩

/-- The collaborator calls of `send` start with the encoder call on the
request, and no other encoder call is made. -/
theorem send_calls (mb : client) (request : ProtocolDataUnit) :
    ∃ rest, (mb.send request).calls = Call.Encode request :: rest ∧
      ∀ pdu, Call.Encode pdu ∉ rest := by
  unfold client.send
  split
  · exact ⟨[], rfl, by simp⟩
  · split
    · exact ⟨_, rfl, by simp⟩
    · simp only
      split
      · exact ⟨_, rfl, by simp⟩
      · exact ⟨_, rfl, by simp⟩
      · split
        · exact ⟨_, rfl, by simp⟩
        · split
          · exact ⟨_, rfl, by simp⟩
          · exact ⟨_, rfl, by simp⟩

/-! ## Claims on the client -/

theorem WriteSingleCoil_calls (mb : client) (address value : Nat)
    (hv : value = 0xFF00 ∨ value = 0x0000) :
    (mb.WriteSingleCoil address value).calls =
      (mb.send { FunctionCode := FuncCodeWriteSingleCoil,
                 Data := some (dataBlock [address, value]) }).calls := by
  unfold client.WriteSingleCoil
  rw [if_neg (by omega)]
  simp only
  generalize mb.send _ = s
  rcases s with ⟨calls, _ | ⟨_ | response, _ | err⟩⟩ <;> try rfl
  simp only
  repeat (first | rfl | split)

/-- C5: `WriteSingleCoil` makes an encoder call exactly when the value is
0xFF00 or 0x0000. For such a value its first collaborator call is the encoder
call on the request with function code 5 and data the big-endian bytes of the
address followed by the big-endian bytes of the value, and it makes no other
encoder call; for any other value it returns `ErrBadRequest` with a nil result
and makes no collaborator call at all. -/
theorem WriteSingleCoil_validation (mb : client) (address value : Nat) :
    ((∃ pdu, Call.Encode pdu ∈ (mb.WriteSingleCoil address value).calls) ↔
      (value = 0xFF00 ∨ value = 0x0000)) ∧
    (if value = 0xFF00 ∨ value = 0x0000 then
      ∃ rest, (mb.WriteSingleCoil address value).calls =
          Call.Encode { FunctionCode := 5,
                        Data := some [address / 256 % 256, address % 256,
                                      value / 256 % 256, value % 256] } :: rest ∧
        ∀ pdu, Call.Encode pdu ∉ rest
    else
      mb.WriteSingleCoil address value = ⟨[], some (none, some Err.ErrBadRequest)⟩) := by
  by_cases hv : value = 0xFF00 ∨ value = 0x0000
  · rw [if_pos hv, WriteSingleCoil_calls mb address value hv]
    obtain ⟨rest, hcalls, hrest⟩ := send_calls mb
      { FunctionCode := FuncCodeWriteSingleCoil, Data := some (dataBlock [address, value]) }
    rw [hcalls]
    refine ⟨⟨fun _ => hv, fun _ => ⟨_, List.mem_cons_self _ _⟩⟩, rest, ?_, hrest⟩
    rw [dataBlock_pair]
    rfl
  · have hbad : mb.WriteSingleCoil address value = ⟨[], some (none, some Err.ErrBadRequest)⟩ := by
      unfold client.WriteSingleCoil
      rw [if_pos (by omega)]
    rw [if_neg hv, hbad]
    simp [hv]

/-- Evaluation of C5 on a client with a canned response: the value 0x1234 is
refused without any call, the value 0xFF00 goes through encoder, transporter
and decoder. -/
theorem WriteSingleCoil_validation_example :
    (cannedClient ⟨5, some [0x12, 0x34, 0xFF, 0x00]⟩).WriteSingleCoil 0x1234 0x1234 =
      ⟨[], some (none, some Err.ErrBadRequest)⟩ ∧
    (cannedClient ⟨5, some [0x12, 0x34, 0xFF, 0x00]⟩).WriteSingleCoil 0x1234 0xFF00 =
      ⟨[Call.Encode ⟨5, some [0x12, 0x34, 0xFF, 0x00]⟩,
        Call.Send (some [5, 0x12, 0x34, 0xFF, 0x00]),
        Call.Decode (some [5, 0x12, 0x34, 0xFF, 0x00])],
       some (some [0xFF, 0x00], none)⟩ := by
  decide


/-- C6: when encoder, transporter and decoder succeed and the decoded response
carries a function code different from the request's, `send` fails with the
`ModbusError` holding the response's function code and, as exception code, the
first byte of the response data, or 0 when the response has no data byte. -/
theorem send_function_code_mismatch (mb : client) (request response : ProtocolDataUnit)
    (aduRequest aduResponse : Slice)
    (h1 : mb.encoder request = (aduRequest, none))
    (h2 : mb.transporter aduRequest = (aduResponse, none))
    (h3 : mb.decoder aduResponse = (some response, none))
    (hfc : response.FunctionCode ≠ request.FunctionCode) :
    (mb.send request).ret =
      some (some response,
        some (Err.ModbusError response.FunctionCode
          (match response.Data with
           | some (b0 :: _) => b0
           | _ => 0))) := by
  rw [send_decoded mb request response aduRequest aduResponse h1 h2 h3, if_pos hfc]
  unfold responseError
  rcases response with ⟨fc, _ | ⟨_ | ⟨b0, rest⟩⟩⟩ <;> simp [len]

/-- Witness for C6: a read-holding-registers request answered by the exception
response with function code 0x83 and exception code 2. -/
theorem send_function_code_mismatch_witness :
    ((cannedClient ⟨0x83, some [2]⟩).send ⟨3, some [0, 0, 0, 1]⟩).ret =
      some (some ⟨0x83, some [2]⟩, some (Err.ModbusError 0x83 2)) :=
  send_function_code_mismatch (cannedClient ⟨0x83, some [2]⟩) ⟨3, some [0, 0, 0, 1]⟩
    ⟨0x83, some [2]⟩ (some [3, 0, 0, 0, 1]) (some [0x83, 2]) rfl rfl rfl (by decide)

/-- C7 as stated fails: a decoded response with the request's function code and
empty data makes `send` fail with `ErrResponse`, the error value of a response
mismatch, so the error is not of a kind distinct from it. -/
theorem send_empty_response_counterexample :
    (cannedClient ⟨3, some []⟩).decoder (some [3]) = (some ⟨3, some []⟩, none) ∧
    ((cannedClient ⟨3, some []⟩).send ⟨3, some [0, 0, 0, 1]⟩).ret =
      some (some ⟨3, some []⟩, some Err.ErrResponse) ∧
    ¬ ∃ e, ((cannedClient ⟨3, some []⟩).send ⟨3, some [0, 0, 0, 1]⟩).ret =
        some (some ⟨3, some []⟩, some e) ∧ e ≠ Err.ErrResponse ∧ e ≠ Err.ErrResponseSize := by
  refine ⟨rfl, by decide, ?_⟩
  rintro ⟨e, he, hne, -⟩
  have h : ((cannedClient ⟨3, some []⟩).send ⟨3, some [0, 0, 0, 1]⟩).ret =
      some (some ⟨3, some []⟩, some Err.ErrResponse) := by decide
  rw [h] at he
  simp only [Option.some.injEq, Prod.mk.injEq, true_and] at he
  exact hne he.symm

/-- C7 amended: when encoder, transporter and decoder succeed and the decoded
response has the request's function code but nil or empty data, `send` fails
with `ErrResponse`; and every response that `send` returns without error is
non-nil, has the request's function code and at least one data byte. -/
theorem send_empty_response (mb : client) (request : ProtocolDataUnit) :
    (∀ (response : ProtocolDataUnit) (aduRequest aduResponse : Slice),
      mb.encoder request = (aduRequest, none) →
      mb.transporter aduRequest = (aduResponse, none) →
      mb.decoder aduResponse = (some response, none) →
      response.FunctionCode = request.FunctionCode →
      (response.Data = none ∨ response.Data = some []) →
      (mb.send request).ret = some (some response, some Err.ErrResponse)) ∧
    (∀ (r : Option ProtocolDataUnit),
      (mb.send request).ret = some (r, none) →
      ∃ response, r = some response ∧ response.FunctionCode = request.FunctionCode ∧
        1 ≤ len response.Data) := by
  constructor
  · intro response aduRequest aduResponse h1 h2 h3 hfc hdata
    rw [send_decoded mb request response aduRequest aduResponse h1 h2 h3,
      if_neg (not_not.mpr hfc), if_pos]
    rcases hdata with h | h <;> simp [h, len]
  · intro r h
    obtain ⟨response, b0, rest, hr, hfc, hd⟩ :=
      send_ok_inv mb request (mb.send request).calls r (by rw [← h])
    exact ⟨response, hr, hfc, by simp [hd, len]⟩

/-- Witness for C7 amended: an empty response gives `ErrResponse`, and a
response returned without error has a data byte. -/
theorem send_empty_response_witness :
    ((cannedClient ⟨3, some []⟩).send ⟨3, some [0, 0, 0, 1]⟩).ret =
      some (some ⟨3, some []⟩, some Err.ErrResponse) ∧
    ∃ response, some (⟨3, some [2, 0, 7]⟩ : ProtocolDataUnit) = some response ∧
      response.FunctionCode = 3 ∧ 1 ≤ len response.Data :=
  ⟨(send_empty_response (cannedClient ⟨3, some []⟩) ⟨3, some [0, 0, 0, 1]⟩).1
      ⟨3, some []⟩ (some [3, 0, 0, 0, 1]) (some [3]) rfl rfl rfl rfl (Or.inr rfl),
   (send_empty_response (cannedClient ⟨3, some [2, 0, 7]⟩) ⟨3, some [0, 0, 0, 1]⟩).2
      (some ⟨3, some [2, 0, 7]⟩) (by decide)⟩


/-- The count check of the variable-length reads, on a first byte `b0` followed
by `rest`: the `int` comparison `count != len(data) - 1` is `b0 ≠ len(rest)`. -/
theorem count_check (b0 : Nat) (rest : List Nat) :
    ((b0 : Int) ≠ (((b0 :: rest).length : Nat) : Int) - 1) ↔ b0 ≠ rest.length := by
  simp only [List.length_cons]
  omega

/-- C8: for each of `ReadCoils`, `ReadDiscreteInputs`, `ReadHoldingRegisters`
and `ReadInputRegisters`, every response that `send` returns without error has
data `b0 :: rest`; when the count `b0` equals `len(data) - 1 = len(rest)` the
operation succeeds with result `data[1:] = rest`, otherwise it fails with
`ErrResponseSize` and a nil result. -/
theorem read_operations_count_check (mb : client) (address quantity : Nat) (calls : List Call)
    (r : Option ProtocolDataUnit) :
    (mb.send ⟨FuncCodeReadCoils, some (dataBlock [address, quantity])⟩
        = ⟨calls, some (r, none)⟩ →
      ∃ response b0 rest, r = some response ∧ response.Data = some (b0 :: rest) ∧
        mb.ReadCoils address quantity =
          if b0 = rest.length then ⟨calls, some (some rest, none)⟩
          else ⟨calls, some (none, some Err.ErrResponseSize)⟩) ∧
    (mb.send ⟨FuncCodeReadDiscreteInputs, some (dataBlock [address, quantity])⟩
        = ⟨calls, some (r, none)⟩ →
      ∃ response b0 rest, r = some response ∧ response.Data = some (b0 :: rest) ∧
        mb.ReadDiscreteInputs address quantity =
          if b0 = rest.length then ⟨calls, some (some rest, none)⟩
          else ⟨calls, some (none, some Err.ErrResponseSize)⟩) ∧
    (mb.send ⟨FuncCodeReadHoldingRegisters, some (dataBlock [address, quantity])⟩
        = ⟨calls, some (r, none)⟩ →
      ∃ response b0 rest, r = some response ∧ response.Data = some (b0 :: rest) ∧
        mb.ReadHoldingRegisters address quantity =
          if b0 = rest.length then ⟨calls, some (some rest, none)⟩
          else ⟨calls, some (none, some Err.ErrResponseSize)⟩) ∧
    (mb.send ⟨FuncCodeReadInputRegisters, some (dataBlock [address, quantity])⟩
        = ⟨calls, some (r, none)⟩ →
      ∃ response b0 rest, r = some response ∧ response.Data = some (b0 :: rest) ∧
        mb.ReadInputRegisters address quantity =
          if b0 = rest.length then ⟨calls, some (some rest, none)⟩
          else ⟨calls, some (none, some Err.ErrResponseSize)⟩) := by
  refine ⟨?_, ?_, ?_, ?_⟩
  · intro h
    obtain ⟨response, b0, rest, rfl, -, hd⟩ := send_ok_inv _ _ _ _ h
    refine ⟨response, b0, rest, rfl, hd, ?_⟩
    unfold client.ReadCoils
    simp only [h, hd, Option.getD_some, len]
    by_cases hc : b0 = rest.length
    · rw [if_neg (by rw [count_check]; exact not_not.mpr hc), if_pos hc]
      rfl
    · rw [if_pos ((count_check b0 rest).mpr hc), if_neg hc]
  · intro h
    obtain ⟨response, b0, rest, rfl, -, hd⟩ := send_ok_inv _ _ _ _ h
    refine ⟨response, b0, rest, rfl, hd, ?_⟩
    unfold client.ReadDiscreteInputs
    simp only [h, hd, Option.getD_some, len]
    by_cases hc : b0 = rest.length
    · rw [if_neg (by rw [count_check]; exact not_not.mpr hc), if_pos hc]
      rfl
    · rw [if_pos ((count_check b0 rest).mpr hc), if_neg hc]
  · intro h
    obtain ⟨response, b0, rest, rfl, -, hd⟩ := send_ok_inv _ _ _ _ h
    refine ⟨response, b0, rest, rfl, hd, ?_⟩
    unfold client.ReadHoldingRegisters
    simp only [h, hd, Option.getD_some, len]
    by_cases hc : b0 = rest.length
    · rw [if_neg (by rw [count_check]; exact not_not.mpr hc), if_pos hc]
      rfl
    · rw [if_pos ((count_check b0 rest).mpr hc), if_neg hc]
  · intro h
    obtain ⟨response, b0, rest, rfl, -, hd⟩ := send_ok_inv _ _ _ _ h
    refine ⟨response, b0, rest, rfl, hd, ?_⟩
    unfold client.ReadInputRegisters
    simp only [h, hd, Option.getD_some, len]
    by_cases hc : b0 = rest.length
    · rw [if_neg (by rw [count_check]; exact not_not.mpr hc), if_pos hc]
      rfl
    · rw [if_pos ((count_check b0 rest).mpr hc), if_neg hc]

/-- Witness for C8: `ReadCoils` on a response whose count byte 2 matches its
two following bytes, and `ReadHoldingRegisters` on a response whose count byte
3 does not. -/
theorem read_operations_count_check_witness :
    (∃ response b0 rest, some (⟨1, some [2, 7, 7]⟩ : ProtocolDataUnit) = some response ∧
      response.Data = some (b0 :: rest) ∧
      (cannedClient ⟨1, some [2, 7, 7]⟩).ReadCoils 0 16 =
        if b0 = rest.length then
          ⟨[Call.Encode ⟨1, some [0, 0, 0, 16]⟩, Call.Send (some [1, 0, 0, 0, 16]),
            Call.Decode (some [1, 2, 7, 7])], some (some rest, none)⟩
        else
          ⟨[Call.Encode ⟨1, some [0, 0, 0, 16]⟩, Call.Send (some [1, 0, 0, 0, 16]),
            Call.Decode (some [1, 2, 7, 7])], some (none, some Err.ErrResponseSize)⟩) ∧
    (∃ response b0 rest, some (⟨3, some [3, 7, 7]⟩ : ProtocolDataUnit) = some response ∧
      response.Data = some (b0 :: rest) ∧
      (cannedClient ⟨3, some [3, 7, 7]⟩).ReadHoldingRegisters 0 1 =
        if b0 = rest.length then
          ⟨[Call.Encode ⟨3, some [0, 0, 0, 1]⟩, Call.Send (some [3, 0, 0, 0, 1]),
            Call.Decode (some [3, 3, 7, 7])], some (some rest, none)⟩
        else
          ⟨[Call.Encode ⟨3, some [0, 0, 0, 1]⟩, Call.Send (some [3, 0, 0, 0, 1]),
            Call.Decode (some [3, 3, 7, 7])], some (none, some Err.ErrResponseSize)⟩) :=
  ⟨(read_operations_count_check (cannedClient ⟨1, some [2, 7, 7]⟩) 0 16 _ _).1 (by decide),
   (read_operations_count_check (cannedClient ⟨3, some [3, 7, 7]⟩) 0 1 _ _).2.2.1 (by decide)⟩

/-- C9, at a failing input: on a response whose count byte 5 differs from
`len(data) - 1 = 2`, `ReadWriteMultipleRegisters` fails with `ErrResponse`,
whereas `ReadHoldingRegisters` on a response with the same data fails with
`ErrResponseSize`. -/
theorem ReadWriteMultipleRegisters_count_mismatch :
    ((cannedClient ⟨23, some [5, 1, 2]⟩).send
        ⟨23, some (dataBlockSuffix [0, 7] [0, 1, 0, 1])⟩).ret
      = some (some ⟨23, some [5, 1, 2]⟩, none) ∧
    ((cannedClient ⟨23, some [5, 1, 2]⟩).ReadWriteMultipleRegisters 0 1 0 1 [0, 7]).ret
      = some (none, some Err.ErrResponse) ∧
    ((cannedClient ⟨3, some [5, 1, 2]⟩).ReadHoldingRegisters 0 1).ret
      = some (none, some Err.ErrResponseSize) := by
  decide

/-- On every response returned by `send` without error,
`ReadWriteMultipleRegisters` returns `data[1:]` when the count matches and
fails with `ErrResponse` otherwise. -/
theorem ReadWriteMultipleRegisters_checked (mb : client)
    (readAddress readQuantity writeAddress writeQuantity : Nat) (value : List Nat)
    (calls : List Call) (r : Option ProtocolDataUnit)
    (h : mb.send ⟨FuncCodeReadWriteMultipleRegisters,
        some (dataBlockSuffix value [readAddress, readQuantity, writeAddress, writeQuantity])⟩
      = ⟨calls, some (r, none)⟩) :
    ∃ response b0 rest, r = some response ∧ response.Data = some (b0 :: rest) ∧
      mb.ReadWriteMultipleRegisters readAddress readQuantity writeAddress writeQuantity value =
        if b0 = rest.length then ⟨calls, some (some rest, none)⟩
        else ⟨calls, some (none, some Err.ErrResponse)⟩ := by
  obtain ⟨response, b0, rest, rfl, -, hd⟩ := send_ok_inv _ _ _ _ h
  refine ⟨response, b0, rest, rfl, hd, ?_⟩
  unfold client.ReadWriteMultipleRegisters
  simp only [h, hd, Option.getD_some, len]
  by_cases hc : b0 = rest.length
  · rw [if_neg (by rw [count_check]; exact not_not.mpr hc), if_pos hc]
    rfl
  · rw [if_pos ((count_check b0 rest).mpr hc), if_neg hc]


/-- A list of length four is its four elements. -/
theorem length_four (data : List Nat) (h : data.length = 4) :
    data = [data.getD 0 0, data.getD 1 0, data.getD 2 0, data.getD 3 0] := by
  match data, h with
  | [b0, b1, b2, b3], _ => rfl

/-- The two sides of an inequality test may be exchanged. -/
theorem ite_ne_symm {α : Type} (a b : Nat) (x y : α) :
    (if a ≠ b then x else y) = if b ≠ a then x else y := by
  by_cases h : a = b
  · rw [if_neg (not_not.mpr h), if_neg (not_not.mpr h.symm)]
  · rw [if_pos h, if_pos (Ne.symm h)]

/-- C10: for each of `WriteSingleCoil` (with a valid value),
`WriteSingleRegister`, `WriteMultipleCoils` and `WriteMultipleRegisters`, on
every response that `send` returns without error, with data bytes `data`: if
`len(data) != 4` the call fails with `ErrResponseSize`; else if the big-endian
`uint16` in `data[0..2)` differs from the address the call fails with
`ErrResponse`; else it succeeds with the two bytes `data[2..4)` as result. -/
theorem write_operations_echo_check (mb : client) (address quantity value coil : Nat)
    (values : List Nat) (calls : List Call) (r : Option ProtocolDataUnit) :
    (coil = 0xFF00 ∨ coil = 0x0000 →
      mb.send ⟨FuncCodeWriteSingleCoil, some (dataBlock [address, coil])⟩
        = ⟨calls, some (r, none)⟩ →
      ∃ response data, r = some response ∧ response.Data = some data ∧
        ((∀ b ∈ data, b < 256) →
          mb.WriteSingleCoil address coil =
            if data.length ≠ 4 then ⟨calls, some (none, some Err.ErrResponseSize)⟩
            else if 256 * data.getD 0 0 + data.getD 1 0 ≠ address then
              ⟨calls, some (none, some Err.ErrResponse)⟩
            else ⟨calls, some (some [data.getD 2 0, data.getD 3 0], none)⟩)) ∧
    (mb.send ⟨FuncCodeWriteSingleRegister, some (dataBlock [address, value])⟩
        = ⟨calls, some (r, none)⟩ →
      ∃ response data, r = some response ∧ response.Data = some data ∧
        ((∀ b ∈ data, b < 256) →
          mb.WriteSingleRegister address value =
            if data.length ≠ 4 then ⟨calls, some (none, some Err.ErrResponseSize)⟩
            else if 256 * data.getD 0 0 + data.getD 1 0 ≠ address then
              ⟨calls, some (none, some Err.ErrResponse)⟩
            else ⟨calls, some (some [data.getD 2 0, data.getD 3 0], none)⟩)) ∧
    (mb.send ⟨FuncCodeWriteMultipleCoils, some (dataBlockSuffix values [address, quantity])⟩
        = ⟨calls, some (r, none)⟩ →
      ∃ response data, r = some response ∧ response.Data = some data ∧
        ((∀ b ∈ data, b < 256) →
          mb.WriteMultipleCoils address quantity values =
            if data.length ≠ 4 then ⟨calls, some (none, some Err.ErrResponseSize)⟩
            else if 256 * data.getD 0 0 + data.getD 1 0 ≠ address then
              ⟨calls, some (none, some Err.ErrResponse)⟩
            else ⟨calls, some (some [data.getD 2 0, data.getD 3 0], none)⟩)) ∧
    (mb.send ⟨FuncCodeWriteMultipleRegisters, some (dataBlockSuffix values [address, quantity])⟩
        = ⟨calls, some (r, none)⟩ →
      ∃ response data, r = some response ∧ response.Data = some data ∧
        ((∀ b ∈ data, b < 256) →
          mb.WriteMultipleRegisters address quantity values =
            if data.length ≠ 4 then ⟨calls, some (none, some Err.ErrResponseSize)⟩
            else if 256 * data.getD 0 0 + data.getD 1 0 ≠ address then
              ⟨calls, some (none, some Err.ErrResponse)⟩
            else ⟨calls, some (some [data.getD 2 0, data.getD 3 0], none)⟩)) := by
  refine ⟨?_, ?_, ?_, ?_⟩
  · intro hv h
    obtain ⟨response, b0, rest, rfl, -, hd⟩ := send_ok_inv _ _ _ _ h
    refine ⟨response, b0 :: rest, rfl, hd, fun hb => ?_⟩
    unfold client.WriteSingleCoil
    rw [if_neg (by omega)]
    simp only [h, hd, Option.getD_some, len]
    by_cases hl : (b0 :: rest).length = 4
    · rw [if_neg (not_not.mpr hl), if_neg (not_not.mpr hl)]
      rw [length_four _ hl] at hb ⊢
      rw [Uint16_bytes _ _ _ (hb _ (by simp)) (hb _ (by simp))]
      simp only [List.getD_cons_zero, List.getD_cons_succ, List.drop_succ_cons, List.drop_zero]
      exact ite_ne_symm _ _ _ _
    · rw [if_pos hl, if_pos hl]
  · intro h
    obtain ⟨response, b0, rest, rfl, -, hd⟩ := send_ok_inv _ _ _ _ h
    refine ⟨response, b0 :: rest, rfl, hd, fun hb => ?_⟩
    unfold client.WriteSingleRegister
    simp only [h, hd, Option.getD_some, len]
    by_cases hl : (b0 :: rest).length = 4
    · rw [if_neg (not_not.mpr hl), if_neg (not_not.mpr hl)]
      rw [length_four _ hl] at hb ⊢
      rw [Uint16_bytes _ _ _ (hb _ (by simp)) (hb _ (by simp))]
      simp only [List.getD_cons_zero, List.getD_cons_succ, List.drop_succ_cons, List.drop_zero]
      exact ite_ne_symm _ _ _ _
    · rw [if_pos hl, if_pos hl]
  · intro h
    obtain ⟨response, b0, rest, rfl, -, hd⟩ := send_ok_inv _ _ _ _ h
    refine ⟨response, b0 :: rest, rfl, hd, fun hb => ?_⟩
    unfold client.WriteMultipleCoils
    simp only [h, hd, Option.getD_some, len]
    by_cases hl : (b0 :: rest).length = 4
    · rw [if_neg (not_not.mpr hl), if_neg (not_not.mpr hl)]
      rw [length_four _ hl] at hb ⊢
      rw [Uint16_bytes _ _ _ (hb _ (by simp)) (hb _ (by simp))]
      simp only [List.getD_cons_zero, List.getD_cons_succ, List.drop_succ_cons, List.drop_zero]
      exact ite_ne_symm _ _ _ _
    · rw [if_pos hl, if_pos hl]
  · intro h
    obtain ⟨response, b0, rest, rfl, -, hd⟩ := send_ok_inv _ _ _ _ h
    refine ⟨response, b0 :: rest, rfl, hd, fun hb => ?_⟩
    unfold client.WriteMultipleRegisters
    simp only [h, hd, Option.getD_some, len]
    by_cases hl : (b0 :: rest).length = 4
    · rw [if_neg (not_not.mpr hl), if_neg (not_not.mpr hl)]
      rw [length_four _ hl] at hb ⊢
      rw [Uint16_bytes _ _ _ (hb _ (by simp)) (hb _ (by simp))]
      simp only [List.getD_cons_zero, List.getD_cons_succ, List.drop_succ_cons, List.drop_zero]
      exact ite_ne_symm _ _ _ _
    · rw [if_pos hl, if_pos hl]

/-- Witness for C10: `WriteSingleRegister` at address 0x1234 on the echo
`12 34 00 07` succeeds with the two bytes `00 07`. -/
theorem write_operations_echo_check_witness :
    (cannedClient ⟨6, some [0x12, 0x34, 0, 7]⟩).WriteSingleRegister 0x1234 7 =
      ⟨[Call.Encode ⟨6, some [0x12, 0x34, 0, 7]⟩, Call.Send (some [6, 0x12, 0x34, 0, 7]),
        Call.Decode (some [6, 0x12, 0x34, 0, 7])], some (some [0, 7], none)⟩ := by
  obtain ⟨response, data, hr, hd, hw⟩ :=
    (write_operations_echo_check (cannedClient ⟨6, some [0x12, 0x34, 0, 7]⟩) 0x1234 0 7 0 []
      [Call.Encode ⟨6, some [0x12, 0x34, 0, 7]⟩, Call.Send (some [6, 0x12, 0x34, 0, 7]),
        Call.Decode (some [6, 0x12, 0x34, 0, 7])]
      (some ⟨6, some [0x12, 0x34, 0, 7]⟩)).2.1 (by decide)
  simp only [Option.some.injEq] at hr
  subst hr
  simp only [Option.some.injEq] at hd
  subst hd
  simpa using hw (by decide)


/-! ## Request payload encoding -/

/-- The big-endian bytes of a list of `uint16` values. -/
theorem PutUint16_append (pre suf : List Nat) (x y v : Nat) :
    PutUint16 (pre ++ x :: y :: suf) pre.length v
      = pre ++ v / 256 % 256 :: v % 256 :: suf := by
  unfold PutUint16
  rw [List.set_append_right _ _ (Nat.le_refl _), Nat.sub_self, List.set_cons_zero,
    List.set_append_right _ _ (Nat.le_succ _)]
  simp [byte, Nat.shiftRight_eq_div_pow]

/-- The loop of `dataBlock` fills the zeroed bytes that follow `pre` with the
big-endian bytes of the values and leaves the bytes before and after them. -/
theorem dataBlock_loop (value : List Nat) :
    ∀ (pre suf : List Nat) (i : Nat), pre.length = i * 2 →
      (value.enumFrom i).foldl (fun data iv => PutUint16 data (iv.1 * 2) iv.2)
          (pre ++ (List.replicate (2 * value.length) 0 ++ suf))
        = pre ++ ((value.map fun v => [v / 256 % 256, v % 256]).flatten ++ suf) := by
  induction value with
  | nil => intro pre suf i _; simp
  | cons v vs ih =>
    intro pre suf i hpre
    have hrep : List.replicate (2 * (v :: vs).length) 0
        = 0 :: 0 :: List.replicate (2 * vs.length) 0 := by
      rw [List.length_cons, show 2 * (vs.length + 1) = 2 * vs.length + 1 + 1 by omega,
        List.replicate_succ, List.replicate_succ]
    rw [hrep, List.enumFrom_cons, List.foldl_cons]
    simp only [List.cons_append]
    rw [← hpre, PutUint16_append]
    have hstep := ih (pre ++ [v / 256 % 256, v % 256]) suf (i + 1)
      (by simp only [List.length_append, List.length_cons, List.length_nil]; omega)
    simp only [List.append_assoc, List.cons_append, List.nil_append] at hstep
    rw [hstep]
    simp

theorem dataBlock_eq (value : List Nat) :
    dataBlock value = (value.map fun v => [v / 256 % 256, v % 256]).flatten := by
  have h := dataBlock_loop value [] [] 0 rfl
  simpa [dataBlock, make, List.enum] using h

theorem flatten_pairs_length (value : List Nat) :
    ((value.map fun v => [v / 256 % 256, v % 256]).flatten).length = 2 * value.length := by
  induction value with
  | nil => rfl
  | cons v vs ih => simp only [List.map_cons, List.flatten_cons, List.length_append, ih,
      List.length_cons, List.length_nil]; omega

/-- Copying `s` over the last `len(s)` bytes of a buffer. -/
theorem copy_tail (pre mid s : List Nat) (h : mid.length = s.length) :
    copy (pre ++ mid) pre.length s = pre ++ s := by
  unfold copy
  have h1 : (pre ++ mid).length - pre.length = s.length := by
    rw [List.length_append, h]; omega
  simp only [h1, Nat.min_self, List.take_left', List.take_length]
  rw [List.drop_eq_nil_of_le (by rw [List.length_append, h]), List.append_nil]

theorem dataBlockSuffix_eq (suffix value : List Nat) (hs : suffix.length ≤ 255) :
    dataBlockSuffix suffix value = dataBlock value ++ [suffix.length] ++ suffix := by
  have hmake : make (2 * value.length + 1 + suffix.length)
      = [] ++ (List.replicate (2 * value.length) 0 ++ List.replicate (1 + suffix.length) 0) := by
    unfold make
    rw [List.nil_append, ← List.replicate_add]
    congr 1
    omega
  have h := dataBlock_loop value [] (List.replicate (1 + suffix.length) 0) 0 rfl
  unfold dataBlockSuffix
  simp only [List.enum]
  rw [hmake, h, dataBlock_eq]
  simp only [List.nil_append]
  generalize hB : (value.map fun v => [v / 256 % 256, v % 256]).flatten = B
  have hBlen : B.length = 2 * value.length := by rw [← hB, flatten_pairs_length]
  have hbyte : byte suffix.length = suffix.length := by unfold byte; omega
  rw [← hBlen, show 1 + suffix.length = suffix.length + 1 by omega, List.replicate_succ,
    List.set_append_right _ _ (Nat.le_refl _), Nat.sub_self, List.set_cons_zero, hbyte]
  have hsplit : B ++ suffix.length :: List.replicate suffix.length 0
      = (B ++ [suffix.length]) ++ List.replicate suffix.length 0 := by simp
  have hoff : B.length + 1 = (B ++ [suffix.length]).length := by simp
  rw [hsplit, hoff, copy_tail _ _ _ (by simp)]


/-- C19: `dataBlock(v1..vk)` has length `2k` and is the concatenation of the
two big-endian bytes of each value in order; for a suffix `s` of at most 255
bytes `dataBlockSuffix(s, v1..vk)` has length `2k + 1 + len(s)` and is
`dataBlock(v1..vk)` followed by the byte `len(s)` followed by `s`. -/
theorem dataBlock_spec (value suffix : List Nat) (hs : suffix.length ≤ 255) :
    dataBlock value = (value.map fun v => [v / 256 % 256, v % 256]).flatten ∧
    (dataBlock value).length = 2 * value.length ∧
    dataBlockSuffix suffix value = dataBlock value ++ [suffix.length] ++ suffix ∧
    (dataBlockSuffix suffix value).length = 2 * value.length + 1 + suffix.length := by
  have hlen : (dataBlock value).length = 2 * value.length := by
    rw [dataBlock_eq, flatten_pairs_length]
  refine ⟨dataBlock_eq value, hlen, dataBlockSuffix_eq suffix value hs, ?_⟩
  rw [dataBlockSuffix_eq suffix value hs]
  simp only [List.length_append, hlen, List.length_cons, List.length_nil]

/-- Witness for C19: the payload of a write-multiple-registers request for two
registers at address 0x1234 with the four bytes `00 0A 01 02`. -/
theorem dataBlock_spec_witness :
    dataBlock [0x1234, 2] = [0x12, 0x34, 0, 2] ∧
    dataBlockSuffix [0, 10, 1, 2] [0x1234, 2] = [0x12, 0x34, 0, 2, 4, 0, 10, 1, 2] := by
  have h := dataBlock_spec [0x1234, 2] [0, 10, 1, 2] (by decide)
  refine ⟨by simpa using h.1, ?_⟩
  rw [h.2.2.1, h.1]
  simp

/-! ## Claims on the client, continued -/

/-- A list of length six is its six elements. -/
theorem length_six (data : List Nat) (h : data.length = 6) :
    data = [data.getD 0 0, data.getD 1 0, data.getD 2 0, data.getD 3 0, data.getD 4 0,
      data.getD 5 0] := by
  match data, h with
  | [b0, b1, b2, b3, b4, b5], _ => rfl

/-- Six bytes are the big-endian encoding of three values exactly when each
pair of bytes has the corresponding value. -/
theorem echo_eq_iff (b0 b1 b2 b3 b4 b5 x y z : Nat)
    (h1 : b1 < 256) (h3 : b3 < 256) (h5 : b5 < 256) :
    [b0, b1, b2, b3, b4, b5] = [x / 256, x % 256, y / 256, y % 256, z / 256, z % 256] ↔
      x = 256 * b0 + b1 ∧ y = 256 * b2 + b3 ∧ z = 256 * b4 + b5 := by
  simp only [List.cons.injEq, and_true]
  constructor
  · rintro ⟨e0, e1, e2, e3, e4, e5⟩
    refine ⟨?_, ?_, ?_⟩ <;> omega
  · rintro ⟨ex, ey, ez⟩
    refine ⟨?_, ?_, ?_, ?_, ?_, ?_⟩ <;> omega

/-- C11: on every response that `send` returns without error, with data bytes
`data`, `MaskWriteRegister` fails with `ErrResponseSize` when `len(data) != 6`,
fails with `ErrResponse` when the length is 6 but `data` is not the big-endian
encoding of `(address, andMask, orMask)`, and otherwise succeeds with the four
bytes after the echoed address, the big-endian encoding of
`(andMask, orMask)`. -/
theorem MaskWriteRegister_echo_check (mb : client) (address andMask orMask : Nat)
    (calls : List Call) (r : Option ProtocolDataUnit)
    (h : mb.send ⟨FuncCodeMaskWriteRegister, some (dataBlock [address, andMask, orMask])⟩
      = ⟨calls, some (r, none)⟩) :
    ∃ response data, r = some response ∧ response.Data = some data ∧
      ((∀ b ∈ data, b < 256) →
        mb.MaskWriteRegister address andMask orMask =
          if data.length ≠ 6 then ⟨calls, some (none, some Err.ErrResponseSize)⟩
          else if data ≠ [address / 256, address % 256, andMask / 256, andMask % 256,
              orMask / 256, orMask % 256] then
            ⟨calls, some (none, some Err.ErrResponse)⟩
          else
            ⟨calls, some (some [andMask / 256, andMask % 256, orMask / 256, orMask % 256],
              none)⟩) := by
  obtain ⟨response, b0, rest, rfl, -, hd⟩ := send_ok_inv _ _ _ _ h
  refine ⟨response, b0 :: rest, rfl, hd, fun hb => ?_⟩
  unfold client.MaskWriteRegister
  simp only [h, hd, Option.getD_some, len]
  by_cases hl : (b0 :: rest).length = 6
  · rw [if_neg (not_not.mpr hl), if_neg (not_not.mpr hl)]
    rw [length_six _ hl] at hb ⊢
    generalize (b0 :: rest).getD 0 0 = c0 at hb ⊢
    generalize (b0 :: rest).getD 1 0 = c1 at hb ⊢
    generalize (b0 :: rest).getD 2 0 = c2 at hb ⊢
    generalize (b0 :: rest).getD 3 0 = c3 at hb ⊢
    generalize (b0 :: rest).getD 4 0 = c4 at hb ⊢
    generalize (b0 :: rest).getD 5 0 = c5 at hb ⊢
    have h0 : c0 < 256 := hb _ (by simp)
    have h1 : c1 < 256 := hb _ (by simp)
    have h2 : c2 < 256 := hb _ (by simp)
    have h3 : c3 < 256 := hb _ (by simp)
    have h4 : c4 < 256 := hb _ (by simp)
    have h5 : c5 < 256 := hb _ (by simp)
    have key := echo_eq_iff c0 c1 c2 c3 c4 c5 address andMask orMask h1 h3 h5
    simp only [List.drop_succ_cons, List.drop_zero, Uint16_bytes _ _ _ h0 h1,
      Uint16_bytes _ _ _ h2 h3, Uint16_bytes _ _ _ h4 h5]
    by_cases e1 : address = 256 * c0 + c1
    · by_cases e2 : andMask = 256 * c2 + c3
      · by_cases e3 : orMask = 256 * c4 + c5
        · have hk := key.mpr ⟨e1, e2, e3⟩
          rw [if_neg (not_not.mpr e1), if_neg (not_not.mpr e2), if_neg (not_not.mpr e3),
            if_neg (not_not.mpr hk)]
          simp only [List.cons.injEq, and_true] at hk
          obtain ⟨-, -, k2, k3, k4, k5⟩ := hk
          rw [← k2, ← k3, ← k4, ← k5]
        · rw [if_neg (not_not.mpr e1), if_neg (not_not.mpr e2), if_pos e3,
            if_pos (fun hk => e3 (key.mp hk).2.2)]
      · rw [if_neg (not_not.mpr e1), if_pos e2, if_pos (fun hk => e2 (key.mp hk).2.1)]
    · rw [if_pos e1, if_pos (fun hk => e1 (key.mp hk).1)]
  · rw [if_pos hl, if_pos hl]

/-- Witness for C11: the echo `00 01 00 02 00 03` of the request
`(address, andMask, orMask) = (1, 2, 3)` gives the result `00 02 00 03`. -/
theorem MaskWriteRegister_echo_check_witness :
    (cannedClient ⟨22, some [0, 1, 0, 2, 0, 3]⟩).MaskWriteRegister 1 2 3 =
      ⟨[Call.Encode ⟨22, some [0, 1, 0, 2, 0, 3]⟩, Call.Send (some [22, 0, 1, 0, 2, 0, 3]),
        Call.Decode (some [22, 0, 1, 0, 2, 0, 3])], some (some [0, 2, 0, 3], none)⟩ := by
  obtain ⟨response, data, hr, hd, hw⟩ :=
    MaskWriteRegister_echo_check (cannedClient ⟨22, some [0, 1, 0, 2, 0, 3]⟩) 1 2 3
      [Call.Encode ⟨22, some [0, 1, 0, 2, 0, 3]⟩, Call.Send (some [22, 0, 1, 0, 2, 0, 3]),
        Call.Decode (some [22, 0, 1, 0, 2, 0, 3])]
      (some ⟨22, some [0, 1, 0, 2, 0, 3]⟩) (by decide)
  simp only [Option.some.injEq] at hr
  subst hr
  simp only [Option.some.injEq] at hd
  subst hd
  simpa using hw (by decide)


/-! ## Claims on the RTU framer and the serial transport, continued -/

/-- C18: on a non-empty request frame `Verify` does not panic, and it returns an
error exactly when the response has fewer than 4 bytes or its first byte
differs from the first byte of the request; a response of fewer than 4 bytes is
reported as too short whatever its first byte, an address mismatch is reported
only on a response of at least 4 bytes. -/
theorem Verify_spec (req resp : List Nat) (hreq : req ≠ []) :
    ∃ err, rtuPackager.Verify req resp = some err ∧
      (err ≠ none ↔ (resp.length < 4 ∨ resp.getD 0 0 ≠ req.getD 0 0)) ∧
      (resp.length < 4 → err = some (Err.ResponseTooShort resp.length 4)) ∧
      (4 ≤ resp.length → resp.getD 0 0 ≠ req.getD 0 0 →
        err = some (Err.SlaveIdMismatch (resp.getD 0 0) (req.getD 0 0))) := by
  unfold rtuPackager.Verify
  simp only [rtuMinSize]
  by_cases hl : resp.length < 4
  · rw [if_pos hl]
    exact ⟨_, rfl, by simp [hl], fun _ => rfl, fun h4 => by omega⟩
  · rw [if_neg hl]
    match resp, req, hl, hreq with
    | r0 :: rs, q0 :: qs, hl, _ =>
      simp only [List.getD_cons_zero]
      by_cases hne : r0 ≠ q0
      · rw [if_pos hne]
        exact ⟨_, rfl, by simp [hne], fun h => absurd h hl, fun _ _ => rfl⟩
      · rw [if_neg hne]
        exact ⟨_, rfl,
          ⟨fun h => absurd rfl h, fun h => h.elim (fun h => absurd h hl) (fun h => absurd h hne)⟩,
          fun h => absurd h hl, fun _ h => absurd h hne⟩
    | [], _, hl, _ => simp at hl
    | _ :: _, [], _, hreq => exact absurd rfl hreq

/-- Witness for C18: a three-byte response whose first byte also differs from
the request's is reported as too short. -/
theorem Verify_spec_witness :
    rtuPackager.Verify [1, 3, 0, 0, 0, 1, 132, 10] [2, 131, 2]
      = some (some (Err.ResponseTooShort 3 4)) := by
  obtain ⟨err, hv, -, hshort, -⟩ :=
    Verify_spec [1, 3, 0, 0, 0, 1, 132, 10] [2, 131, 2] (by decide)
  rw [hv, hshort (by decide)]
  rfl

/-- C12: on a request frame of at least 6 bytes, with function code `adu[1]`
and quantity `q` the big-endian `uint16` at `adu[4..6)`,
`calculateResponseLength` returns `5 + ceil(q/8)` for function codes 1 and 2,
`5 + 2q` for 3, 4 and 23, 8 for 5, 6, 15 and 16, 10 for 22 and 4 for every other
function code. -/
theorem calculateResponseLength_spec (adu : List Nat) (hlen : 6 ≤ adu.length)
    (hb : ∀ b ∈ adu, b < 256) :
    calculateResponseLength adu = some (
      if adu.getD 1 0 = 1 ∨ adu.getD 1 0 = 2 then
        5 + (256 * adu.getD 4 0 + adu.getD 5 0 + 7) / 8
      else if adu.getD 1 0 = 3 ∨ adu.getD 1 0 = 4 ∨ adu.getD 1 0 = 23 then
        5 + 2 * (256 * adu.getD 4 0 + adu.getD 5 0)
      else if adu.getD 1 0 = 5 ∨ adu.getD 1 0 = 6 ∨ adu.getD 1 0 = 15 ∨ adu.getD 1 0 = 16 then
        8
      else if adu.getD 1 0 = 22 then 10
      else 4) := by
  match adu, hlen, hb with
  | a0 :: fc :: a2 :: a3 :: a4 :: a5 :: rest, _, hb =>
    have h4 : a4 < 256 := hb _ (by simp)
    have h5 : a5 < 256 := hb _ (by simp)
    simp only [calculateResponseLength, List.drop_succ_cons, List.drop_zero,
      Uint16_bytes _ _ _ h4 h5, List.getD_cons_zero, List.getD_cons_succ, rtuMinSize,
      FuncCodeReadDiscreteInputs, FuncCodeReadCoils, FuncCodeReadInputRegisters,
      FuncCodeReadHoldingRegisters, FuncCodeReadWriteMultipleRegisters, FuncCodeWriteSingleCoil,
      FuncCodeWriteMultipleCoils, FuncCodeWriteSingleRegister, FuncCodeWriteMultipleRegisters,
      FuncCodeMaskWriteRegister, FuncCodeReadFIFOQueue]
    generalize 256 * a4 + a5 = q
    split_ifs <;> first | rfl | (simp only [Option.some.injEq]; omega)

/-- Witness for C12: a read-holding-registers request for 5 registers gives 15
and a read-coils request for 8 coils gives 6. -/
theorem calculateResponseLength_spec_witness :
    calculateResponseLength [1, 3, 0, 0, 0, 5, 133, 201] = some 15 ∧
    calculateResponseLength [1, 1, 0, 0, 0, 8, 61, 204] = some 6 :=
  ⟨(calculateResponseLength_spec [1, 3, 0, 0, 0, 5, 133, 201] (by decide) (by decide)).trans
      (by decide),
   (calculateResponseLength_spec [1, 1, 0, 0, 0, 8, 61, 204] (by decide) (by decide)).trans
      (by decide)⟩


/-- A value in the range of `int64` is left unchanged by the wrap-around. -/
theorem int64_of_fits (x : Int) (h0 : 0 ≤ x) (h1 : x < 2 ^ 63) : int64 x = x := by
  unfold int64
  omega

/-- C14 as stated fails: at baud 19200 and `chars = 2^54` the product
`characterDelay * chars` exceeds the range of a 64-bit `int`, and the duration
returned is not `(781 * chars + 1822)` microseconds. -/
theorem calculateDelay_overflow_counterexample :
    (0 : Int) ≤ 2 ^ 54 ∧
    calculateDelay 19200 (2 ^ 54) = -5620492334956557008 ∧
    calculateDelay 19200 (2 ^ 54) ≠ (781 * 2 ^ 54 + 1822) * 1000 := by
  decide

/-- C14 amended: for every baud and every `chars >= 0` such that
`(characterDelay * chars + frameDelay)` microseconds fit a `time.Duration`
(fewer than `2^63` nanoseconds), `calculateDelay` returns that duration, where
`characterDelay = 15000000 / baud` and `frameDelay = 35000000 / baud` when
`0 < baud <= 19200`, and 750 and 1750 otherwise. -/
theorem calculateDelay_spec (Baud chars : Int) (hchars : 0 ≤ chars)
    (hfit : ((if 0 < Baud ∧ Baud ≤ 19200 then 15000000 / Baud else 750) * chars +
        (if 0 < Baud ∧ Baud ≤ 19200 then 35000000 / Baud else 1750)) * 1000 < 2 ^ 63) :
    calculateDelay Baud chars =
      ((if 0 < Baud ∧ Baud ≤ 19200 then 15000000 / Baud else 750) * chars +
        (if 0 < Baud ∧ Baud ≤ 19200 then 35000000 / Baud else 1750)) * 1000 := by
  unfold calculateDelay
  by_cases hB : 0 < Baud ∧ Baud ≤ 19200
  · have hn : ¬ (Baud ≤ 0 ∨ Baud > 19200) := by omega
    rw [if_pos hB, if_pos hB] at hfit
    rw [if_pos hB, if_pos hB]
    simp only [if_neg hn]
    rw [Int.tdiv_eq_ediv (by decide) (by omega), Int.tdiv_eq_ediv (by decide) (by omega)]
    have hc0 : (0 : Int) ≤ 15000000 / Baud := Int.ediv_nonneg (by decide) (by omega)
    have hf0 : (0 : Int) ≤ 35000000 / Baud := Int.ediv_nonneg (by decide) (by omega)
    have hc1 : (15000000 : Int) / Baud ≤ 15000000 :=
      Int.ediv_le_self _ (by decide)
    have hf1 : (35000000 : Int) / Baud ≤ 35000000 :=
      Int.ediv_le_self _ (by decide)
    have hp0 : 0 ≤ 15000000 / Baud * chars := Int.mul_nonneg hc0 hchars
    generalize 15000000 / Baud = cd at *
    generalize 35000000 / Baud = fd at *
    rw [int64_of_fits cd hc0 (by omega), int64_of_fits fd hf0 (by omega)]
    generalize cd * chars = p at *
    rw [int64_of_fits p hp0 (by omega), int64_of_fits (p + fd) (by omega) (by omega),
      int64_of_fits ((p + fd) * 1000) (by omega) hfit]
  · have hn : Baud ≤ 0 ∨ Baud > 19200 := by omega
    rw [if_neg hB, if_neg hB] at hfit
    rw [if_neg hB, if_neg hB]
    simp only [if_pos hn]
    have hp0 : 0 ≤ 750 * chars := Int.mul_nonneg (by decide) hchars
    generalize 750 * chars = p at *
    rw [int64_of_fits p hp0 (by omega), int64_of_fits (p + 1750) (by omega) (by omega),
      int64_of_fits ((p + 1750) * 1000) (by omega) hfit]

/-- Witness for C14 amended: at baud 19200 one character gives
`781 + 1822` microseconds and at baud 9600 `1562 + 3645` microseconds. -/
theorem calculateDelay_spec_witness :
    calculateDelay 19200 1 = (781 * 1 + 1822) * 1000 ∧
    calculateDelay 9600 1 = (1562 * 1 + 3645) * 1000 :=
  ⟨(calculateDelay_spec 19200 1 (by decide) (by decide)).trans (by decide),
   (calculateDelay_spec 9600 1 (by decide) (by decide)).trans (by decide)⟩


/-- The receive buffer after the minimum read holds the bytes read, followed by
zero bytes. -/
theorem receive_buffer (first : List Nat) (hn : first.length ≤ 256) :
    copy (make 256) 0 first = first ++ List.replicate (256 - first.length) 0 := by
  unfold copy make
  simp only [List.length_replicate, Nat.sub_zero, List.take_zero, List.nil_append, Nat.zero_add,
    Nat.min_eq_right hn, List.take_length, List.drop_replicate]

/-- On a response whose second byte is the request's function code with its
high bit set, `Send` makes no follow-up read: for a function code below 0x80,
after a minimum read of `n` bytes (`4 <= n <= 256`) it returns these `n` bytes
at once. -/
theorem Send_exception_response (mb : rtuSerialTransporter) (a f : Nat) (rest first : List Nat)
    (bytesToRead : Nat) (hf : f < 128) (hconnect : mb.connect = none)
    (hwrite : mb.Write (a :: f :: rest) = none)
    (hlength : calculateResponseLength (a :: f :: rest) = some bytesToRead)
    (hread : mb.ReadAtLeast = (first, none)) (h4 : 4 ≤ first.length)
    (h256 : first.length ≤ 256) (hsecond : first.getD 1 0 = f ||| 0x80) :
    mb.Send (a :: f :: rest) =
      ⟨[PortOp.connect, PortOp.Write (a :: f :: rest),
        PortOp.Sleep (calculateDelay mb.Baud ((a :: f :: rest).length + bytesToRead)),
        PortOp.ReadAtLeast 0 256 4], some (some first, none)⟩ := by
  have hor : f ||| 0x80 = f + 128 := by
    have h := Nat.mul_add_lt_is_or (show f < 2 ^ 7 from hf) 1
    rw [Nat.lor_comm]
    simpa [Nat.add_comm] using h.symm
  have hand : f &&& 0x80 = 0 := by
    have : ∀ g < 128, g &&& 0x80 = 0 := by decide
    exact this f hf
  have hbuf := receive_buffer first h256
  have hget : (first ++ List.replicate (256 - first.length) 0).getD 1 0 = f + 128 := by
    rw [List.getD_append _ _ _ _ (by omega), hsecond, hor]
  have hslice : slice (first ++ List.replicate (256 - first.length) 0) 0 first.length = first :=
    slice_frame _ _
  unfold rtuSerialTransporter.Send
  simp only [hconnect, hwrite, hlength, hread, rtuMaxSize, rtuMinSize, hbuf, hget, hand, hslice]
  rw [if_neg (by omega), if_neg (by omega)]

/-- C13, at a failing input: after the read-holding-registers request
`01 03 00 00 00 05 85 C9` the minimum read returns the first four bytes
`01 83 02 C0` of an exception response and the port still holds the fifth,
`F1`. `Send` makes no further read and returns the four bytes, because it
compares the second byte with `function & 0x80 = 0`. -/
theorem Send_exception_path_not_taken :
    (3 ||| 0x80 = 0x83 ∧ 3 &&& 0x80 = 0) ∧
    (cannedPort [1, 0x83, 2, 0xC0] [0xF1]).Send [1, 3, 0, 0, 0, 5, 0x85, 0xC9] =
      ⟨[PortOp.connect, PortOp.Write [1, 3, 0, 0, 0, 5, 0x85, 0xC9], PortOp.Sleep 19785000,
        PortOp.ReadAtLeast 0 256 4], some (some [1, 0x83, 2, 0xC0], none)⟩ := by
  decide

/-- C20, at a failing input: after the read-holding-registers request
`01 03 00 00 00 05 85 C9` (predicted length 15) the minimum read returns six
bytes whose second byte is 0, the value of `function & 0x80`. `Send` enters the
branch of the exception path with `n = 6 < 15` and slices `data[6:5]`: a
run-time panic. -/
theorem Send_exception_path_slice_panic :
    calculateResponseLength [1, 3, 0, 0, 0, 5, 0x85, 0xC9] = some 15 ∧
    (cannedPort [1, 0, 0, 0, 0, 0] []).Send [1, 3, 0, 0, 0, 5, 0x85, 0xC9] =
      ⟨[PortOp.connect, PortOp.Write [1, 3, 0, 0, 0, 5, 0x85, 0xC9], PortOp.Sleep 19785000,
        PortOp.ReadAtLeast 0 256 4], none⟩ := by
  decide


/-! ## Claims on the TCP server -/

/-- C15: on a request PDU with function code 3 whose data starts with the
big-endian bytes of an address and of a quantity, the dispatch calls
`ReadHoldingRegisters(unit id, address, quantity)` once; when the handler
returns `k <= 127` registers without error the response has the request's unit
id, function code 3 and data `[2k]` followed by the big-endian bytes of the
registers; when the handler returns an error the response has the request's
unit id, function code 0x83 and data `[IllegalDataAddress]`. -/
theorem dispatch_ReadHoldingRegisters (handler : mbHandler) (unit a0 a1 q0 q1 : Nat)
    (rest : List Nat) (ha0 : a0 < 256) (ha1 : a1 < 256) (hq0 : q0 < 256) (hq1 : q1 < 256) :
    (∀ regs, handler.ReadHoldingRegisters unit (256 * a0 + a1) (256 * q0 + q1)
        = some (regs, none) → regs.length ≤ 127 →
      ServeModbus.dispatch handler
          { SlaveID := unit, FunctionCode := 3, Data := some (a0 :: a1 :: q0 :: q1 :: rest) } =
        ⟨[HandlerCall.ReadHoldingRegisters unit (256 * a0 + a1) (256 * q0 + q1)],
          some { SlaveID := unit, FunctionCode := 3,
                 Data := some ([2 * regs.length] ++
                   (regs.map fun v => [v / 256 % 256, v % 256]).flatten) }⟩) ∧
    (∀ regs err, handler.ReadHoldingRegisters unit (256 * a0 + a1) (256 * q0 + q1)
        = some (regs, some err) →
      ServeModbus.dispatch handler
          { SlaveID := unit, FunctionCode := 3, Data := some (a0 :: a1 :: q0 :: q1 :: rest) } =
        ⟨[HandlerCall.ReadHoldingRegisters unit (256 * a0 + a1) (256 * q0 + q1)],
          some { SlaveID := unit, FunctionCode := 0x83,
                 Data := some [ExceptionCodeIllegalDataAddress] }⟩) := by
  constructor
  · intro regs hregs hk
    have hbyte : byte (regs.length * 2) = 2 * regs.length := by unfold byte; omega
    unfold ServeModbus.dispatch
    simp only [FuncCodeReadHoldingRegisters, if_true, Option.getD_some, List.drop_succ_cons,
      List.drop_zero, Uint16_bytes _ _ _ ha0 ha1, Uint16_bytes _ _ _ hq0 hq1, hregs, hbyte,
      dataBlock_eq]
  · intro regs err hregs
    unfold ServeModbus.dispatch
    simp only [FuncCodeReadHoldingRegisters, if_true, Option.getD_some, List.drop_succ_cons,
      List.drop_zero, Uint16_bytes _ _ _ ha0 ha1, Uint16_bytes _ _ _ hq0 hq1, hregs]
    rfl

/-- Witness for C15 on the register array of the test: address 0, quantity 3
gives the data `06 27 11 00 02 00 03`, and address 9, quantity 5 gives the
exception response with `IllegalDataAddress`. -/
theorem dispatch_ReadHoldingRegisters_witness :
    ServeModbus.dispatch testRegisters.handler
        { SlaveID := 1, FunctionCode := 3, Data := some [0, 0, 0, 3] } =
      ⟨[HandlerCall.ReadHoldingRegisters 1 0 3],
        some { SlaveID := 1, FunctionCode := 3,
               Data := some [6, 0x27, 0x11, 0, 2, 0, 3] }⟩ ∧
    ServeModbus.dispatch testRegisters.handler
        { SlaveID := 1, FunctionCode := 3, Data := some [0, 9, 0, 5] } =
      ⟨[HandlerCall.ReadHoldingRegisters 1 9 5],
        some { SlaveID := 1, FunctionCode := 0x83, Data := some [2] }⟩ :=
  ⟨(dispatch_ReadHoldingRegisters testRegisters.handler 1 0 0 0 3 [] (by decide) (by decide)
      (by decide) (by decide)).1 [10001, 2, 3] (by decide) (by decide),
   (dispatch_ReadHoldingRegisters testRegisters.handler 1 0 9 0 5 [] (by decide) (by decide)
      (by decide) (by decide)).2 [] (Err.Errorf "out of range") (by decide)⟩

/-- C16: on a request PDU whose function code is neither 3 nor 6 the dispatch
calls no handler method and returns the exception response with the request's
unit id, the request's function code with its high bit set, and the single data
byte `IllegalFunction`. -/
theorem dispatch_IllegalFunction (handler : mbHandler) (pdu : PDUwithSlaveid)
    (h3 : pdu.FunctionCode ≠ 3) (h6 : pdu.FunctionCode ≠ 6) :
    ServeModbus.dispatch handler pdu =
      ⟨[], some { SlaveID := pdu.SlaveID, FunctionCode := pdu.FunctionCode ||| 0x80,
                  Data := some [ExceptionCodeIllegalFunction] }⟩ := by
  unfold ServeModbus.dispatch
  rw [if_neg (show ¬ pdu.FunctionCode = FuncCodeReadHoldingRegisters from h3),
    if_neg (show ¬ pdu.FunctionCode = FuncCodeWriteSingleRegister from h6)]
  rfl

/-- Witness for C16: a read-coils request gets the exception response with
function code 0x81 and data `[1]`. -/
theorem dispatch_IllegalFunction_witness :
    ServeModbus.dispatch testRegisters.handler
        { SlaveID := 17, FunctionCode := 1, Data := some [0, 0, 0, 8] } =
      ⟨[], some { SlaveID := 17, FunctionCode := 0x81, Data := some [1] }⟩ :=
  dispatch_IllegalFunction testRegisters.handler
    { SlaveID := 17, FunctionCode := 1, Data := some [0, 0, 0, 8] } (by decide) (by decide)

/-- C17, at a failing input: a pass in which the read of the header fails ends
with `continue`, so after any number of failed header reads the goroutine is
still in its loop and the connection is not closed; a request that arrives
after a failed header read is served; a failed read of the body, in contrast,
ends the goroutine and closes the connection. -/
theorem header_read_error_continues :
    (∀ (mb : TcpServer) (handler : serverHandler) (body : Nat → Option (List Nat)),
      mb.pass handler { header := none, body := body } = Pass.nextPass []) ∧
    (∀ (mb : TcpServer) (handler : serverHandler) (k : Nat),
      mb.connection handler (List.replicate k failedHeader) = ([], false)) ∧
    cannedServer.connection (ServeModbus.serverHandler testRegisters.handler)
        [failedHeader, wholeFrame [0, 42, 0, 0, 0, 6, 1, 3, 0, 0, 0, 3]] =
      ([ConnOp.Write [0, 42, 0, 0, 0, 9, 1, 3, 6, 0x27, 0x11, 0, 2, 0, 3]], false) ∧
    cannedServer.connection (ServeModbus.serverHandler testRegisters.handler)
        [{ header := some [0, 42, 0, 0, 0, 6, 1], body := fun _ => none }, failedHeader] =
      ([ConnOp.Close], true) := by
  refine ⟨fun _ _ _ => rfl, ?_, by decide, by decide⟩
  intro mb handler k
  induction k with
  | zero => rfl
  | succ k ih =>
    rw [List.replicate_succ]
    show (match mb.pass handler failedHeader with
      | Pass.nextPass ops =>
        (ops ++ (mb.connection handler (List.replicate k failedHeader)).1,
          (mb.connection handler (List.replicate k failedHeader)).2)
      | Pass.returned ops => (ops ++ [ConnOp.Close], true)
      | Pass.panicked ops => (ops ++ [ConnOp.Close], true)) = ([], false)
    rw [ih]
    rfl


/-! ## Claims across framer, prediction and dispatch -/

/-- The checksum is a 16-bit value. -/
theorem crc16_lt (bs : List Nat) : crc16 bs < 65536 := by
  unfold crc16 crc.value uint16
  omega

/-- The two bytes that `Encode` appends are read back by `Decode` as the
checksum they were taken from. -/
theorem trailer_checksum (c : Nat) (hc : c < 65536) :
    uint16 ((uint16 (byte (c >>> 8))) <<< 8) ||| uint16 (byte c) = c := by
  have hlo : byte c < 256 := by unfold byte; omega
  have hhi : byte (c >>> 8) < 256 := by unfold byte; omega
  rw [checksum_bytes _ _ hlo hhi]
  unfold byte
  rw [Nat.shiftRight_eq_div_pow]
  omega

/-- C21: for every PDU with slave id `a`, function code `f` and data `d` of at
most 252 bytes, `Encode` succeeds with a frame of `len(d) + 4` bytes, and
`Decode` of that frame succeeds and returns slave id `a`, function code `f` and
the bytes of `d` as data (a non-nil slice, empty when `d` is nil or empty). -/
theorem Encode_Decode (a f : Nat) (d : Slice) (hd : len d ≤ 252) :
    ∃ adu, rtuPackager.Encode { SlaveID := a, FunctionCode := f, Data := d } = (some adu, none) ∧
      adu.length = len d + 4 ∧
      rtuPackager.Decode adu =
        (some { SlaveID := a, FunctionCode := f, Data := some (d.getD []) }, none) := by
  refine ⟨_, Encode_eq _ (by simpa using (by omega : len d + 4 ≤ 256)), by simp [len], ?_⟩
  have hframe : [a, f] ++ d.getD [] ++
      [byte (crc16 ([a, f] ++ d.getD [])), byte (crc16 ([a, f] ++ d.getD []) >>> 8)]
      = a :: f :: (d.getD [] ++
        [byte (crc16 (a :: f :: d.getD [])), byte (crc16 (a :: f :: d.getD []) >>> 8)]) := by
    simp
  simp only [hframe]
  rw [Decode_frame, trailer_checksum _ (crc16_lt _), if_neg (not_not.mpr rfl)]

/-- Witness for C21: the read-holding-registers request for 10 registers at
address 0 of slave 1 is framed as `01 03 00 00 00 0A C5 CD` and decoded back. -/
theorem Encode_Decode_witness :
    ∃ adu, rtuPackager.Encode { SlaveID := 1, FunctionCode := 3, Data := some [0, 0, 0, 10] }
        = (some adu, none) ∧
      adu.length = 8 ∧
      rtuPackager.Decode adu =
        (some { SlaveID := 1, FunctionCode := 3, Data := some [0, 0, 0, 10] }, none) :=
  Encode_Decode 1 3 (some [0, 0, 0, 10]) (by decide)

/-- On a request PDU with function code 3 or 6 and fewer than four data bytes
the dispatch panics before it calls the handler. -/
theorem dispatch_short_data (handler : mbHandler) (pdu : PDUwithSlaveid)
    (hfc : pdu.FunctionCode = 3 ∨ pdu.FunctionCode = 6) (hlen : len pdu.Data < 4) :
    ServeModbus.dispatch handler pdu = ⟨[], none⟩ := by
  have hshort : Uint16 (pdu.Data.getD []) = none ∨
      ∃ address, Uint16 (pdu.Data.getD []) = some address ∧
        Uint16 ((pdu.Data.getD []).drop 2) = none := by
    unfold len at hlen
    match hdata : pdu.Data.getD [], hlen with
    | [], _ => exact Or.inl rfl
    | [_], _ => exact Or.inl rfl
    | [_, _], _ => exact Or.inr ⟨_, rfl, rfl⟩
    | [_, _, _], _ => exact Or.inr ⟨_, rfl, rfl⟩
  unfold ServeModbus.dispatch
  rcases hfc with hfc | hfc
  · rw [if_pos (show pdu.FunctionCode = FuncCodeReadHoldingRegisters from hfc)]
    rcases hshort with h0 | ⟨address, h0, h2⟩
    · simp only [h0]
    · simp only [h0, h2]
  · rw [if_neg (show ¬ pdu.FunctionCode = FuncCodeReadHoldingRegisters by
        rw [hfc]; decide),
      if_pos (show pdu.FunctionCode = FuncCodeWriteSingleRegister from hfc)]
    rcases hshort with h0 | ⟨address, h0, h2⟩
    · simp only [h0]
    · simp only [h0, h2]

/-- C22, at a failing input: on the request PDUs with function code 3 and the
three data bytes `00 09 00`, with function code 6 and the same data, and with
function code 3 and no data, the dispatch panics without calling the handler;
the frame `00 2A 00 00 00 05 01 03 00 09 00`, whose length field agrees with
its size, brings the first of them to the dispatch in the connection loop, and
the pass ends in the panic. -/
theorem dispatch_panics_on_short_request :
    ServeModbus.dispatch testRegisters.handler
        { SlaveID := 1, FunctionCode := 3, Data := some [0, 9, 0] } = ⟨[], none⟩ ∧
    ServeModbus.dispatch testRegisters.handler
        { SlaveID := 1, FunctionCode := 6, Data := some [0, 9, 0] } = ⟨[], none⟩ ∧
    ServeModbus.dispatch testRegisters.handler
        { SlaveID := 1, FunctionCode := 3, Data := some [] } = ⟨[], none⟩ ∧
    cannedServer.pass (ServeModbus.serverHandler testRegisters.handler)
        (wholeFrame [0, 42, 0, 0, 0, 5, 1, 3, 0, 9, 0]) = Pass.panicked [] := by
  decide


/-- The predicted response length of a read-holding-registers request frame. -/
theorem calculateResponseLength_registers (a0 a2 a3 q0 q1 : Nat) (rest : List Nat)
    (hq0 : q0 < 256) (hq1 : q1 < 256) :
    calculateResponseLength (a0 :: 3 :: a2 :: a3 :: q0 :: q1 :: rest)
      = some (5 + 2 * (256 * q0 + q1)) := by
  simp only [calculateResponseLength, List.drop_succ_cons, List.drop_zero,
    Uint16_bytes _ _ _ hq0 hq1, rtuMinSize, FuncCodeReadDiscreteInputs, FuncCodeReadCoils,
    FuncCodeReadInputRegisters, FuncCodeReadHoldingRegisters, Nat.succ_ne_self, OfNat.ofNat_ne_one,
    or_false, false_or, or_true, true_or, if_true, if_false, Option.some.injEq]
  omega

/-- The response of the dispatch to a read-holding-registers request that the
handler answers with registers and no error. -/
theorem dispatch_registers (handler : mbHandler) (unit address quantity : Nat)
    (regs : List Nat) (haddress : address < 65536) (hquantity : quantity < 65536)
    (hregs : handler.ReadHoldingRegisters unit address quantity = some (regs, none)) :
    ServeModbus.dispatch handler
        { SlaveID := unit, FunctionCode := 3, Data := some (dataBlock [address, quantity]) } =
      ⟨[HandlerCall.ReadHoldingRegisters unit address quantity],
        some { SlaveID := unit, FunctionCode := 3,
               Data := some (byte (regs.length * 2) :: dataBlock regs) }⟩ := by
  have ha : 256 * (address / 256 % 256) + address % 256 = address := by omega
  have hq : 256 * (quantity / 256 % 256) + quantity % 256 = quantity := by omega
  unfold ServeModbus.dispatch
  simp only [FuncCodeReadHoldingRegisters, if_true, Option.getD_some, dataBlock_pair,
    List.drop_succ_cons, List.drop_zero,
    Uint16_bytes (address / 256 % 256) (address % 256) _ (by omega) (by omega),
    Uint16_bytes (quantity / 256 % 256) (quantity % 256) _ (by omega) (by omega), ha, hq, hregs,
    List.singleton_append]

/-- C23: for every unit id, address and quantity `q <= 125`, when the handler
answers the read-holding-registers request PDU (function code 3, data
`dataBlock(address, q)`) with exactly `q` registers, the RTU frame of the
request and the RTU frame of the dispatch response both encode without error,
the response frame has exactly the `5 + 2q` bytes that
`calculateResponseLength` predicts from the request frame, and the response
data is a count byte equal to `len(data) - 1` followed by that many bytes, so
that the test `count != len(data) - 1` of `ReadHoldingRegisters` is false. -/
theorem prediction_agrees_with_framing (handler : mbHandler) (unit address q : Nat)
    (regs : List Nat) (haddress : address < 65536) (hq : q ≤ 125)
    (hregs : handler.ReadHoldingRegisters unit address q = some (regs, none))
    (hlen : regs.length = q) :
    ∃ request response answer,
      rtuPackager.Encode
          { SlaveID := unit, FunctionCode := 3, Data := some (dataBlock [address, q]) }
        = (some request, none) ∧
      (ServeModbus.dispatch handler
          { SlaveID := unit, FunctionCode := 3, Data := some (dataBlock [address, q]) }).ret
        = some response ∧
      rtuPackager.Encode response = (some answer, none) ∧
      calculateResponseLength request = some (5 + 2 * q) ∧
      answer.length = 5 + 2 * q ∧
      ∃ b0 rest, response.Data = some (b0 :: rest) ∧ b0 = (b0 :: rest).length - 1 ∧
        (b0 : Int) = (len response.Data : Int) - 1 := by
  have hdisp := dispatch_registers handler unit address q regs haddress (by omega) hregs
  have hbyte : byte (regs.length * 2) = 2 * q := by unfold byte; omega
  have hdata : (dataBlock regs).length = 2 * q := by
    rw [dataBlock_eq, flatten_pairs_length, hlen]
  have hreq := Encode_eq
    { SlaveID := unit, FunctionCode := 3, Data := some (dataBlock [address, q]) }
    (by simp [len, dataBlock_pair])
  have hans := Encode_eq
    { SlaveID := unit, FunctionCode := 3, Data := some (byte (regs.length * 2) :: dataBlock regs) }
    (by simp only [len, Option.getD_some, List.length_cons, hdata]; omega)
  refine ⟨_, _, _, hreq, by rw [hdisp], hans, ?_, ?_, byte (regs.length * 2), dataBlock regs,
    rfl, ?_, ?_⟩
  · simp only [Option.getD_some, dataBlock_pair, List.cons_append, List.nil_append]
    rw [calculateResponseLength_registers _ _ _ _ _ _ (by omega) (by omega)]
    congr 2
    omega
  · simp only [Option.getD_some, List.cons_append, List.nil_append, List.length_cons,
      List.length_append, List.length_nil, hdata]
    omega
  · rw [hbyte, List.length_cons, hdata]
    omega
  · simp only [len, Option.getD_some, List.length_cons, hdata, hbyte]
    omega

/-- Witness for C23 on the register array of the test: the request for 3
registers at address 0 of unit 1 is answered by a frame of `5 + 2 * 3 = 11`
bytes. -/
theorem prediction_agrees_with_framing_witness :
    ∃ request response answer,
      rtuPackager.Encode
          { SlaveID := 1, FunctionCode := 3, Data := some (dataBlock [0, 3]) }
        = (some request, none) ∧
      (ServeModbus.dispatch testRegisters.handler
          { SlaveID := 1, FunctionCode := 3, Data := some (dataBlock [0, 3]) }).ret
        = some response ∧
      rtuPackager.Encode response = (some answer, none) ∧
      calculateResponseLength request = some (5 + 2 * 3) ∧
      answer.length = 5 + 2 * 3 ∧
      ∃ b0 rest, response.Data = some (b0 :: rest) ∧ b0 = (b0 :: rest).length - 1 ∧
        (b0 : Int) = (len response.Data : Int) - 1 :=
  prediction_agrees_with_framing testRegisters.handler 1 0 3 [10001, 2, 3] (by decide)
    (by decide) (by decide) (by decide)

end Modbus
